import Mathlib

/-!
# Clinic client (`src/frontend/src/App.js`)

A shallow embedding of the React client of the clinic system.

* JavaScript strings are Lean strings; `jsLength` is the UTF-16 length that
  the `.length` property of a JavaScript string returns.
* A component is a record of its `useState` cells; an event handler is a
  function from the state (and the outcome of the network calls it awaits) to
  an `Outcome`: the HTTP requests issued, the toasts shown, the callbacks
  invoked and the next state.
* A request is kept at wire level: method, URL path and the list of query
  pairs (whether the source passes them as axios `params` or writes them into
  the URL), and the body.
* Values that come from the environment (`API_URL`, the current date, the
  built-ins `toLowerCase`, `JSON.parse`, `JSON.stringify` and `String`) are
  parameters.
* `App` is embedded with the strings `localStorage` holds: a render evaluates
  `JSON.parse` on the stored user again and may throw.
-/

namespace Clinic

/-! ## JavaScript values, requests, toasts -/

/-- JSON values as far as the client inspects them; arrays and objects that are
only passed around are `object` (always truthy). -/
inductive JSVal
  | null
  | bool (b : Bool)
  | num (n : Int)
  | str (s : String)
  | object (ref : Nat)
  deriving DecidableEq

/-- JavaScript truthiness. -/
def JSVal.truthy : JSVal → Bool
  | .null => false
  | .bool b => b
  | .num n => n != 0
  | .str s => s != ""
  | .object _ => true

/-- An object literal: its own keys, in insertion order. -/
abbrev JSObject := List (String × JSVal)

/-- Property assignment in an object literal or spread: an existing key keeps
its position and takes the new value, a new key goes last. -/
def JSObject.set : JSObject → String → JSVal → JSObject
  | [], k, v => [(k, v)]
  | (k', v') :: rest, k, v =>
    if k' = k then (k', v) :: rest else (k', v') :: JSObject.set rest k v

/-- Property read: `none` is `undefined`. -/
def JSObject.get (o : JSObject) (k : String) : Option JSVal :=
  (o.find? (fun p => p.1 = k)).map (fun p => p.2)

/-- The keys of an object. -/
def JSObject.keys (o : JSObject) : List String := o.map (fun p => p.1)

/-- The result of `.length` on a JavaScript string: UTF-16 code units. -/
def jsLength (s : String) : Nat :=
  (s.toList.map (fun c => if c.toNat < 0x10000 then 1 else 2)).sum

/-- The result of `s.includes(t)`. -/
def jsIncludes (s t : String) : Bool :=
  decide (t.toList <:+: s.toList)

inductive Method
  | GET
  | POST
  | PATCH
  | DELETE
  deriving DecidableEq

/-- What an axios call sends as its payload. -/
inductive Body
  | none
  | json (o : JSObject)
  | multipart (file : Option String)
  deriving DecidableEq

structure Request where
  method : Method
  url : String
  query : List (String × String)
  body : Body
  deriving DecidableEq

inductive Toast
  | success (msg : JSVal)
  | error (msg : JSVal)
  | info (msg : JSVal)
  deriving DecidableEq

/-- Callbacks a component receives as props. -/
inductive Callback
  | onSuccess
  | onClose
  | onLogin (token : JSVal) (user : JSVal)
  deriving DecidableEq

/-- What running an event handler does. -/
structure Outcome (σ : Type) where
  requests : List Request
  toasts : List Toast
  calls : List Callback
  state : σ

/-! ## Module-level constants and helpers (lines 11-21) -/

/-- The list `SPECIALIZATIONS` of the source, lines 12-16. -/
def SPECIALIZATIONS : List String :=
  ["Cardiologia", "Dermatologia", "Ortopedia", "Pediatria", "Oculistica",
   "Ginecologia", "Neurologia", "Psichiatria", "Urologia",
   "Otorinolaringoiatria", "Gastroenterologia", "Endocrinologia", "Medicina Generale"]

/-- The `data` of an error response: `detail` is `none` when the key is absent. -/
structure ErrData where
  detail : Option JSVal
  deriving DecidableEq

/-- An HTTP error response: `data` is `none` when null or undefined. -/
structure ErrResponse where
  status : Nat
  data : Option ErrData
  deriving DecidableEq

/-- The error an axios call rejects with: `response` is absent on a network
failure. -/
structure AxiosError where
  response : Option ErrResponse
  deriving DecidableEq

/-- The function `getErrorMessage`, lines 18-21. -/
def getErrorMessage (error : AxiosError) : JSVal :=
  match error.response with
  | none => .str "Errore di rete o server non raggiungibile"
  | some response =>
    match response.data.bind (fun d => d.detail) with
    | some detail => if detail.truthy then detail else .str "Errore imprevisto"
    | none => .str "Errore imprevisto"

/-! ## Appointments as the client receives them -/

/-- An element of the array returned by `GET /api/appointments/my`, with the
fields the client reads. `patient_name` is optional (read with `?.`). -/
structure Appointment where
  appointment_id : String
  patient_name : Option String
  doctor_name : String
  specialization : String
  date : String
  time_slot : String
  status : String
  deriving DecidableEq

/-! ## DoctorDashboardAdvanced (lines 171-290) -/

structure DoctorState where
  view : String
  appointments : List Appointment
  filteredAppts : List Appointment
  searchTerm : String
  statusFilter : String
  uploadModal : Option Appointment
  deriving DecidableEq

/-- The initial `useState` values, lines 172-177. -/
def DoctorState.init : DoctorState :=
  { view := "dashboard", appointments := [], filteredAppts := [],
    searchTerm := "", statusFilter := "all", uploadModal := none }

/-- The body of the filter effect, lines 190-192; `lower` is `toLowerCase`. -/
def applyFilters (lower : String → String) (searchTerm statusFilter : String)
    (appointments : List Appointment) : List Appointment :=
  let result := appointments
  let result :=
    if searchTerm ≠ "" then
      result.filter (fun a =>
        match a.patient_name with
        | some n => jsIncludes (lower n) (lower searchTerm)
        | none => false)
    else result
  let result :=
    if statusFilter ≠ "all" then result.filter (fun a => a.status = statusFilter)
    else result
  result

/-- The filter effect, lines 189-194. -/
def filterEffect (lower : String → String) (s : DoctorState) : DoctorState :=
  { s with filteredAppts := applyFilters lower s.searchTerm s.statusFilter s.appointments }

/-- The request of `fetchData`, line 181 (also lines 365 and 370). -/
def getMyAppointments (apiUrl : String) : Request :=
  { method := .GET, url := apiUrl ++ "/api/appointments/my", query := [], body := .none }

/-- The function `fetchData`, lines 179-185, followed by the filter effect that
the change of `appointments` triggers. `res` is the outcome of the GET. -/
def fetchData (apiUrl : String) (lower : String → String) (s : DoctorState)
    (res : Option (List Appointment)) : Outcome DoctorState :=
  match res with
  | some data =>
    { requests := [getMyAppointments apiUrl], toasts := [], calls := [],
      state := filterEffect lower { s with appointments := data, filteredAppts := data } }
  | none =>
    { requests := [getMyAppointments apiUrl],
      toasts := [.error (.str "Errore caricamento dati")], calls := [], state := s }

/-- The PATCH of `updateStatus`, line 204. -/
def patchStatus (apiUrl : String) (id status : String) : Request :=
  { method := .PATCH, url := apiUrl ++ "/api/appointments/" ++ id ++ "/status",
    query := [("status", status)], body := .none }

/-- The function `updateStatus`, lines 202-208. `patchOk` says whether the PATCH
resolved; `res` is the outcome of the GET of `fetchData`. -/
def updateStatus (apiUrl : String) (lower : String → String) (s : DoctorState)
    (id status : String) (patchOk : Bool) (res : Option (List Appointment)) :
    Outcome DoctorState :=
  if patchOk then
    let r := fetchData apiUrl lower s res
    { requests := patchStatus apiUrl id status :: r.requests,
      toasts := .success (.str "Stato aggiornato") :: r.toasts,
      calls := r.calls, state := r.state }
  else
    { requests := [patchStatus apiUrl id status], toasts := [.error (.str "Errore")],
      calls := [], state := s }

/-- The `onClick` handlers a table row can carry, lines 258-264. -/
inductive DoctorAction
  | updateStatus (id : String) (status : String)
  | setUploadModal (app : Appointment)
  deriving DecidableEq

/-- The buttons of the actions cell of one row, lines 257-265, left to right. -/
def doctorRowActions (app : Appointment) : List DoctorAction :=
  (if app.status = "pending" then
    [.updateStatus app.appointment_id "confirmed", .updateStatus app.appointment_id "rejected"]
   else [])
  ++ (if app.status = "confirmed" then [.setUploadModal app] else [])

/-- The rows of the table, line 252: one per element of `filteredAppts`. -/
def doctorRows (s : DoctorState) : List (Appointment × List DoctorAction) :=
  s.filteredAppts.map (fun app => (app, doctorRowActions app))

/-- Every call of `updateStatus` the dashboard can make: the handlers of the
buttons it renders. -/
def doctorUpdateCalls (s : DoctorState) : List (String × String) :=
  (doctorRows s).flatMap (fun row => row.2.filterMap (fun a =>
    match a with
    | .updateStatus id status => some (id, status)
    | .setUploadModal _ => none))

/-! ## UploadForm (lines 292-321) -/

structure UploadState where
  file : Option String
  notes : String
  deriving DecidableEq

/-- The POST of `handleUpload`, lines 298-308; `today` is the date part of
`new Date().toISOString()`. -/
def uploadRequest (apiUrl today : String) (appointment : Appointment) (f : UploadState) :
    Request :=
  { method := .POST, url := apiUrl ++ "/api/reports/upload",
    query := [("appointment_id", appointment.appointment_id),
              ("exam_type", "Visita Specialistica"),
              ("exam_date", today),
              ("notes", f.notes)],
    body := .multipart f.file }

/-- The function `handleUpload`, lines 296-312; `ok` says whether the POST resolved. -/
def handleUpload (apiUrl today : String) (appointment : Appointment) (f : UploadState)
    (ok : Bool) : Outcome UploadState :=
  if ok then
    { requests := [uploadRequest apiUrl today appointment f],
      toasts := [.success (.str "Referto caricato!")], calls := [.onClose], state := f }
  else
    { requests := [uploadRequest apiUrl today appointment f],
      toasts := [.error (.str "Errore upload")], calls := [], state := f }

/-! ## Events of the doctor dashboard -/

/-- What can happen to a mounted `DoctorDashboardAdvanced`. -/
inductive DoctorEvent
  | fetchData (res : Option (List Appointment))
  | setView (v : String)
  | setSearchTerm (v : String)
  | setStatusFilter (v : String)
  | click (row : Nat) (button : Nat) (patchOk : Bool) (res : Option (List Appointment))
  | closeModal
  | upload (form : UploadState) (ok : Bool)

/-- One event on the dashboard; `none` when the page does not offer it: the
table and the search controls exist only in the dashboard view (line 223), a
button only in the row that renders it, the upload form only while
`uploadModal` is set (line 279). -/
def doctorStep (apiUrl today : String) (lower : String → String) (s : DoctorState) :
    DoctorEvent → Option (Outcome DoctorState)
  | .fetchData res => some (fetchData apiUrl lower s res)
  | .setView v =>
    if v = "dashboard" ∨ v = "profile" then
      some { requests := [], toasts := [], calls := [], state := { s with view := v } }
    else none
  | .setSearchTerm v =>
    if s.view = "dashboard" then
      some { requests := [], toasts := [], calls := [],
             state := filterEffect lower { s with searchTerm := v } }
    else none
  | .setStatusFilter v =>
    if s.view = "dashboard" ∧ v ∈ ["all", "pending", "confirmed"] then
      some { requests := [], toasts := [], calls := [],
             state := filterEffect lower { s with statusFilter := v } }
    else none
  | .click row button patchOk res =>
    if s.view = "dashboard" then
      match (doctorRows s)[row]? with
      | some (_, actions) =>
        match actions[button]? with
        | some (.updateStatus id status) =>
          some (updateStatus apiUrl lower s id status patchOk res)
        | some (.setUploadModal app) =>
          some { requests := [], toasts := [], calls := [],
                 state := { s with uploadModal := some app } }
        | none => none
      | none => none
    else none
  | .closeModal =>
    if s.uploadModal.isSome then
      some { requests := [], toasts := [], calls := [], state := { s with uploadModal := none } }
    else none
  | .upload form ok =>
    match s.uploadModal with
    | some app =>
      let r := handleUpload apiUrl today app form ok
      some { requests := r.requests, toasts := r.toasts, calls := [],
             state := if Callback.onClose ∈ r.calls then { s with uploadModal := none } else s }
    | none => none

/-- A sequence of events from a state: the requests issued, in order, and the
final state; `none` when some event is not offered where it occurs. -/
def doctorRun (apiUrl today : String) (lower : String → String) :
    DoctorState → List DoctorEvent → Option (List Request × DoctorState)
  | s, [] => some ([], s)
  | s, e :: es =>
    match doctorStep apiUrl today lower s e with
    | none => none
    | some r =>
      match doctorRun apiUrl today lower r.state es with
      | none => none
      | some (reqs, s') => some (r.requests ++ reqs, s')

/-! ## PatientAppointments (lines 363-390) -/

/-- The DELETE of `cancel`, line 369. -/
def deleteAppointment (apiUrl id : String) : Request :=
  { method := .DELETE, url := apiUrl ++ "/api/appointments/" ++ id, query := [], body := .none }

/-- The function `cancel`, lines 367-374. `confirm` is the answer of
`window.confirm`, `deleteOk` whether the DELETE resolved, `res` the outcome of
the GET that follows. A rejected await leaves the handler at that point. -/
def cancel (apiUrl : String) (appointments : List Appointment) (id : String)
    (confirm deleteOk : Bool) (res : Option (List Appointment)) :
    Outcome (List Appointment) :=
  if confirm then
    if deleteOk then
      match res with
      | some data =>
        { requests := [deleteAppointment apiUrl id, getMyAppointments apiUrl],
          toasts := [.info (.str "Cancellato")], calls := [], state := data }
      | none =>
        { requests := [deleteAppointment apiUrl id, getMyAppointments apiUrl],
          toasts := [], calls := [], state := appointments }
    else
      { requests := [deleteAppointment apiUrl id], toasts := [], calls := [],
        state := appointments }
  else
    { requests := [], toasts := [], calls := [], state := appointments }

/-- The `onClick` handlers a card can carry, line 385. -/
inductive PatientAction
  | cancel (id : String)
  deriving DecidableEq

/-- The buttons of one appointment card, line 385. -/
def patientCardActions (a : Appointment) : List PatientAction :=
  if a.status = "pending" then [.cancel a.appointment_id] else []

/-- The cards of the patient view, line 379. -/
def patientCards (appointments : List Appointment) : List (Appointment × List PatientAction) :=
  appointments.map (fun a => (a, patientCardActions a))

/-! ## Select boxes -/

/-- An `option` element of a `select`. -/
structure SelectOption where
  value : String
  label : String
  disabled : Bool
  deriving DecidableEq

/-- The values a user can pick in a `select`: those of its enabled options, in
document order. -/
def selectable (options : List SelectOption) : List String :=
  (options.filter (fun o => !o.disabled)).map (fun o => o.value)

/-! ## BookAppointment (lines 392-444) -/

/-- An element of the array returned by `GET /api/doctors`. -/
structure Doctor where
  user_id : String
  name : String
  surname : String
  deriving DecidableEq

structure BookState where
  spec : String
  doctors : List Doctor
  selectedDoc : String
  date : String
  slots : List String
  selectedSlot : String
  reason : String
  deriving DecidableEq

/-- The initial `useState` values, lines 393-399. -/
def BookState.init : BookState :=
  { spec := "", doctors := [], selectedDoc := "", date := "", slots := [],
    selectedSlot := "", reason := "" }

/-- The object literal posted by `submit`, line 407. -/
def bookingBody (s : BookState) : JSObject :=
  [("doctor_id", .str s.selectedDoc), ("date", .str s.date),
   ("time_slot", .str s.selectedSlot), ("reason", .str s.reason)]

/-- The POST of `submit`, line 407. -/
def bookingRequest (apiUrl : String) (s : BookState) : Request :=
  { method := .POST, url := apiUrl ++ "/api/appointments", query := [],
    body := .json (bookingBody s) }

/-- The function `submit`, lines 404-411; `res` is the outcome of the POST. -/
def submit (apiUrl : String) (s : BookState) (res : Except AxiosError Unit) :
    Outcome BookState :=
  match res with
  | .ok _ =>
    { requests := [bookingRequest apiUrl s], toasts := [.success (.str "Prenotato!")],
      calls := [.onSuccess], state := s }
  | .error _ =>
    { requests := [bookingRequest apiUrl s], toasts := [.error (.str "Errore")],
      calls := [], state := s }

/-- The options of the specialization select of the booking form, lines 418-421. -/
def bookSpecOptions : List SelectOption :=
  { value := "", label := "Seleziona Specializzazione...", disabled := true }
    :: SPECIALIZATIONS.map (fun s => { value := s, label := s, disabled := false })

/-- The GET of the effect on `spec`, line 401. -/
def getDoctors (apiUrl spec : String) : Request :=
  { method := .GET, url := apiUrl ++ "/api/doctors", query := [("specialization", spec)],
    body := .none }

/-- The GET of the effect on `selectedDoc` and `date`, line 402. -/
def getAvailability (apiUrl selectedDoc date : String) : Request :=
  { method := .GET, url := apiUrl ++ "/api/doctors/" ++ selectedDoc ++ "/availability",
    query := [("date", date)], body := .none }

/-- The effect of line 401, run when `spec` has changed from `old`. -/
def specEffect (apiUrl : String) (old : String) (s : BookState) : List Request :=
  if s.spec ≠ old ∧ s.spec ≠ "" then [getDoctors apiUrl s.spec] else []

/-- The effect of line 402, run when `selectedDoc` or `date` has changed. -/
def availabilityEffect (apiUrl : String) (oldDoc oldDate : String) (s : BookState) :
    List Request :=
  if (s.selectedDoc ≠ oldDoc ∨ s.date ≠ oldDate) ∧ s.selectedDoc ≠ "" ∧ s.date ≠ "" then
    [getAvailability apiUrl s.selectedDoc s.date]
  else []

/-- What can happen to a mounted `BookAppointment`: the user edits a control,
a response arrives, the form is submitted. -/
inductive BookEvent
  | selectSpec (v : String)
  | doctorsLoaded (doctors : List Doctor)
  | selectDoc (v : String)
  | setDate (v : String)
  | slotsLoaded (slots : List String)
  | clickSlot (v : String)
  | setReason (v : String)
  | submit (res : Except AxiosError Unit)

/-- One event on the booking form; `none` when the form does not offer it: a
control exists only under the condition that renders it (lines 423, 433, 434,
440) and a select or the slot grid yields only a value it shows. The form can
be submitted in every state: by the button of line 440 or from the keyboard. -/
def bookStep (apiUrl : String) (s : BookState) : BookEvent → Option (Outcome BookState)
  | .selectSpec v =>
    if v ∈ selectable bookSpecOptions then
      let s' := { s with spec := v }
      some { requests := specEffect apiUrl s.spec s', toasts := [], calls := [], state := s' }
    else none
  | .doctorsLoaded ds =>
    some { requests := [], toasts := [], calls := [], state := { s with doctors := ds } }
  | .selectDoc v =>
    if s.spec ≠ "" ∧ v ∈ s.doctors.map (fun d => d.user_id) then
      let s' := { s with selectedDoc := v }
      some { requests := availabilityEffect apiUrl s.selectedDoc s.date s', toasts := [],
             calls := [], state := s' }
    else none
  | .setDate v =>
    if s.selectedDoc ≠ "" then
      let s' := { s with date := v }
      some { requests := availabilityEffect apiUrl s.selectedDoc s.date s', toasts := [],
             calls := [], state := s' }
    else none
  | .slotsLoaded sl =>
    some { requests := [], toasts := [], calls := [], state := { s with slots := sl } }
  | .clickSlot v =>
    if s.date ≠ "" ∧ v ∈ s.slots then
      some { requests := [], toasts := [], calls := [], state := { s with selectedSlot := v } }
    else none
  | .setReason v =>
    if s.selectedSlot ≠ "" then
      some { requests := [], toasts := [], calls := [], state := { s with reason := v } }
    else none
  | .submit res => some (submit apiUrl s res)

/-- A sequence of events on the booking form: the requests issued, in order,
and the final state. -/
def bookRun (apiUrl : String) : BookState → List BookEvent → Option (List Request × BookState)
  | s, [] => some ([], s)
  | s, e :: es =>
    match bookStep apiUrl s e with
    | none => none
    | some r =>
      match bookRun apiUrl r.state es with
      | none => none
      | some (reqs, s') => some (r.requests ++ reqs, s')

/-! ## LoginPage (lines 112-165) -/

structure FormData where
  email : String
  password : String
  role : String
  name : String
  surname : String
  phone : String
  specialization : String
  deriving DecidableEq

/-- The object held in `formData`: its keys in the order of line 114. -/
def FormData.toObject (f : FormData) : JSObject :=
  [("email", .str f.email), ("password", .str f.password), ("role", .str f.role),
   ("name", .str f.name), ("surname", .str f.surname), ("phone", .str f.phone),
   ("specialization", .str f.specialization)]

structure LoginState where
  isLogin : Bool
  formData : FormData
  loading : Bool
  deriving DecidableEq

/-- The initial `useState` values, lines 113-115. -/
def LoginState.init : LoginState :=
  { isLogin := true,
    formData := { email := "", password := "", role := "patient", name := "", surname := "",
                  phone := "", specialization := "" },
    loading := false }

/-- The body posted to the login endpoint, line 122. -/
def loginPayload (f : FormData) : JSObject :=
  [("email", .str f.email), ("password", .str f.password)]

/-- The body posted to the register endpoint, line 125: the spread of
`formData` with `specialization` assigned over it. -/
def registerPayload (f : FormData) : JSObject :=
  f.toObject.set "specialization" (if f.role = "doctor" then .str f.specialization else .null)

/-- The request of `handleSubmit`, lines 121-125. -/
def authRequest (apiUrl : String) (s : LoginState) : Request :=
  if s.isLogin then
    { method := .POST, url := apiUrl ++ "/api/auth/login", query := [],
      body := .json (loginPayload s.formData) }
  else
    { method := .POST, url := apiUrl ++ "/api/auth/register", query := [],
      body := .json (registerPayload s.formData) }

/-- The function `handleSubmit`, lines 117-130. `res` is the outcome of the
POST: on success the `token` and `user` of the response data. -/
def handleSubmit (apiUrl : String) (s : LoginState) (res : Except AxiosError (JSVal × JSVal)) :
    Outcome LoginState :=
  match res with
  | .ok (token, user) =>
    if s.isLogin then
      { requests := [authRequest apiUrl s], toasts := [], calls := [.onLogin token user],
        state := { s with loading := false } }
    else
      { requests := [authRequest apiUrl s],
        toasts := [.success (.str "Registrato! Ora accedi.")], calls := [],
        state := { s with isLogin := true, loading := false } }
  | .error error =>
    { requests := [authRequest apiUrl s], toasts := [.error (getErrorMessage error)],
      calls := [], state := { s with loading := false } }

/-- The options of the role select, lines 144-147. -/
def roleOptions : List SelectOption :=
  [{ value := "patient", label := "Sono un Paziente", disabled := false },
   { value := "doctor", label := "Sono un Medico", disabled := false }]

/-- The options of the specialization select of the registration form, lines
150-153. -/
def registerSpecOptions : List SelectOption :=
  { value := "", label := "Seleziona Specializzazione", disabled := true }
    :: SPECIALIZATIONS.map (fun spec => { value := spec, label := spec, disabled := false })

/-- What can happen to a mounted `LoginPage`. -/
inductive LoginEvent
  | setName (v : String)
  | setSurname (v : String)
  | setPhone (v : String)
  | selectRole (v : String)
  | selectSpecialization (v : String)
  | setEmail (v : String)
  | setPassword (v : String)
  | toggle
  | submit (res : Except AxiosError (JSVal × JSVal))

/-- One event on the login page; `none` when the page does not offer it: the
registration fields exist only when `isLogin` is false (line 138), the
specialization select only for the role doctor (line 149), and a select
yields only a value it shows. -/
def loginStep (apiUrl : String) (s : LoginState) : LoginEvent → Option (Outcome LoginState)
  | .setName v =>
    if !s.isLogin then
      some { requests := [], toasts := [], calls := [],
             state := { s with formData := { s.formData with name := v } } }
    else none
  | .setSurname v =>
    if !s.isLogin then
      some { requests := [], toasts := [], calls := [],
             state := { s with formData := { s.formData with surname := v } } }
    else none
  | .setPhone v =>
    if !s.isLogin then
      some { requests := [], toasts := [], calls := [],
             state := { s with formData := { s.formData with phone := v } } }
    else none
  | .selectRole v =>
    if !s.isLogin ∧ v ∈ selectable roleOptions then
      some { requests := [], toasts := [], calls := [],
             state := { s with formData := { s.formData with role := v } } }
    else none
  | .selectSpecialization v =>
    if !s.isLogin ∧ s.formData.role = "doctor" ∧ v ∈ selectable registerSpecOptions then
      some { requests := [], toasts := [], calls := [],
             state := { s with formData := { s.formData with specialization := v } } }
    else none
  | .setEmail v =>
    some { requests := [], toasts := [], calls := [],
           state := { s with formData := { s.formData with email := v } } }
  | .setPassword v =>
    some { requests := [], toasts := [], calls := [],
           state := { s with formData := { s.formData with password := v } } }
  | .toggle =>
    some { requests := [], toasts := [], calls := [], state := { s with isLogin := !s.isLogin } }
  | .submit res => some (handleSubmit apiUrl s res)

/-- A sequence of events on the login page: the requests issued, in order, and
the final state. -/
def loginRun (apiUrl : String) : LoginState → List LoginEvent → Option (List Request × LoginState)
  | s, [] => some ([], s)
  | s, e :: es =>
    match loginStep apiUrl s e with
    | none => none
    | some r =>
      match loginRun apiUrl r.state es with
      | none => none
      | some (reqs, s') => some (r.requests ++ reqs, s')

/-! ## UserProfile (lines 479-581) -/

structure PassData where
  old_password : String
  new_password : String
  confirm_password : String
  deriving DecidableEq

structure ProfileState where
  passData : PassData
  loading : Bool
  deriving DecidableEq

/-- The POST of `handleChangePass`, lines 497-500. -/
def changePasswordRequest (apiUrl : String) (p : PassData) : Request :=
  { method := .POST, url := apiUrl ++ "/api/users/change-password", query := [],
    body := .json [("old_password", .str p.old_password), ("new_password", .str p.new_password)] }

/-- The function `handleChangePass`, lines 483-508; `res` is the outcome of the
POST when one is sent. -/
def handleChangePass (apiUrl : String) (s : ProfileState) (res : Except AxiosError Unit) :
    Outcome ProfileState :=
  if s.passData.new_password ≠ s.passData.confirm_password then
    { requests := [], toasts := [.error (.str "Le nuove password non coincidono!")],
      calls := [], state := s }
  else if jsLength s.passData.new_password < 6 then
    { requests := [],
      toasts := [.error (.str "La password deve essere di almeno 6 caratteri")],
      calls := [], state := s }
  else
    match res with
    | .ok _ =>
      { requests := [changePasswordRequest apiUrl s.passData],
        toasts := [.success (.str "Password cambiata con successo!")], calls := [],
        state := { passData := { old_password := "", new_password := "", confirm_password := "" },
                   loading := false } }
    | .error err =>
      { requests := [changePasswordRequest apiUrl s.passData],
        toasts := [.error (getErrorMessage err)], calls := [],
        state := { s with loading := false } }

/-! ## Booking Transaction Manager (spec sections 3, 4.2 and 5)

The server that answers `POST /api/appointments` is not among the sources; the
client only calls it (`submit`, line 407). It is modelled from the spec as a
set of in-flight `book` requests, each of which runs the read-check-write of
section 5 inside a critical section scoped to the slot key. A schedule picks,
step by step, which request moves next. -/

/-- Modelled from the spec: the appointment statuses of section 4.3 (the server
side state machine is missing from the sources). -/
inductive Status
  | pending
  | confirmed
  | rejected
  | cancelled
  deriving DecidableEq

/-- Modelled from the spec: the active statuses of section 3, `pending` and
`confirmed` (server side, missing from the sources). -/
def Status.active : Status → Bool
  | .pending => true
  | .confirmed => true
  | .rejected => false
  | .cancelled => false

/-- Modelled from the spec: the Appointment entity of section 3 as the server
stores it (the store is missing from the sources). -/
structure StoredAppointment where
  id : Nat
  patient_id : String
  doctor_id : String
  date : String
  time_slot : String
  status : Status
  reason : String
  deriving DecidableEq

/-- Modelled from the spec: the natural key of a slot, section 4.2 (missing from
the sources). -/
structure SlotKey where
  doctor_id : String
  date : String
  time_slot : String
  deriving DecidableEq

/-- Modelled from the spec: an appointment holds a slot when it has that key and
an active status, section 3 (missing from the sources). -/
def StoredAppointment.holds (a : StoredAppointment) (k : SlotKey) : Bool :=
  decide (a.doctor_id = k.doctor_id ∧ a.date = k.date ∧ a.time_slot = k.time_slot)
    && a.status.active

/-- Modelled from the spec: the number of active appointments of a key in the
store, the quantity the slot-uniqueness invariant of section 3 bounds by one
(missing from the sources). -/
def activeCount (store : List StoredAppointment) (k : SlotKey) : Nat :=
  store.countP (fun a => a.holds k)

/-- Modelled from the spec: the arguments of `book`, section 4.2 (missing from
the sources). -/
structure BookingCall where
  patient_id : String
  doctor_id : String
  date : String
  time_slot : String
  reason : String
  deriving DecidableEq

/-- Modelled from the spec: the slot a call asks for (missing from the sources). -/
def BookingCall.key (c : BookingCall) : SlotKey :=
  { doctor_id := c.doctor_id, date := c.date, time_slot := c.time_slot }

/-- Modelled from the spec: the results of `book`, section 4.2 (missing from the
sources). -/
inductive BookResult
  | created (a : StoredAppointment)
  | conflictError
  | validationError
  deriving DecidableEq

/-- Modelled from the spec: the preconditions of `book`, section 4.2: the
patient exists and the slot belongs to the template of the doctor for the date
(the template provider and the user store are missing from the sources and are
parameters). -/
def validCall (template : String → String → List String) (patients : List String)
    (c : BookingCall) : Bool :=
  decide (c.patient_id ∈ patients) && decide (c.time_slot ∈ template c.doctor_id c.date)

/-- Modelled from the spec: where a `book` request stands, section 5: not yet
in the critical section of its key, inside it before the read, after the check,
after the write, or returned (missing from the sources). -/
inductive Phase
  | waiting
  | entered
  | checked (free : Bool)
  | written (a : StoredAppointment)
  | returned (r : BookResult)
  deriving DecidableEq

/-- Modelled from the spec: a request is inside the critical section from its
entry to its return (missing from the sources). -/
def Phase.inside : Phase → Bool
  | .waiting => false
  | .entered => true
  | .checked _ => true
  | .written _ => true
  | .returned _ => false

/-- Modelled from the spec: the request has returned to its caller (missing from
the sources). -/
def Phase.isReturned : Phase → Bool
  | .returned _ => true
  | _ => false

/-- Modelled from the spec: the request returned a created appointment (missing
from the sources). -/
def Phase.succeeded : Phase → Bool
  | .returned (.created _) => true
  | _ => false

/-- Modelled from the spec: the request returned `ConflictError` (missing from
the sources). -/
def Phase.conflicted : Phase → Bool
  | .returned .conflictError => true
  | _ => false

/-- Modelled from the spec: the server of section 5: the persisted appointments
and the requests being served (missing from the sources). -/
structure Server where
  store : List StoredAppointment
  procs : List (BookingCall × Phase)
  deriving DecidableEq

/-- Modelled from the spec: some request is inside the critical section of the
key, section 5 (missing from the sources). -/
def busy (procs : List (BookingCall × Phase)) (k : SlotKey) : Bool :=
  procs.any (fun p => decide (p.1.key = k) && p.2.inside)

/-- Modelled from the spec: the appointment `book` creates, section 4.2: status
`pending`, a fresh id (appointments are never deleted, section 3). -/
def newAppointment (store : List StoredAppointment) (c : BookingCall) : StoredAppointment :=
  { id := store.length, patient_id := c.patient_id, doctor_id := c.doctor_id, date := c.date,
    time_slot := c.time_slot, status := .pending, reason := c.reason }

/-- Modelled from the spec: one step of request `i` of `book`, sections 4.2 and
5 (the server is missing from the sources). A request that fails the
preconditions returns `ValidationError`; otherwise it enters the critical
section of its key when no request is inside it, reads whether the slot is
free, writes the new appointment or fails with `ConflictError`, and leaves.
`none` when the request cannot move (blocked, returned, or absent). -/
def Server.step (template : String → String → List String) (patients : List String)
    (s : Server) (i : Nat) : Option Server :=
  match s.procs[i]? with
  | none => none
  | some (c, .waiting) =>
    if !validCall template patients c then
      some { s with procs := s.procs.set i (c, .returned .validationError) }
    else if busy s.procs c.key then none
    else some { s with procs := s.procs.set i (c, .entered) }
  | some (c, .entered) =>
    some { s with procs := s.procs.set i (c, .checked (activeCount s.store c.key == 0)) }
  | some (c, .checked true) =>
    some { store := s.store ++ [newAppointment s.store c],
           procs := s.procs.set i (c, .written (newAppointment s.store c)) }
  | some (c, .checked false) =>
    some { s with procs := s.procs.set i (c, .returned .conflictError) }
  | some (c, .written a) =>
    some { s with procs := s.procs.set i (c, .returned (.created a)) }
  | some (_, .returned _) => none

/-- Modelled from the spec: an execution under a schedule, the list of the
requests that move, in order (section 5; missing from the sources). `none`
when the schedule picks a request that cannot move. -/
def Server.run (template : String → String → List String) (patients : List String) :
    Server → List Nat → Option Server
  | s, [] => some s
  | s, i :: sched =>
    match Server.step template patients s i with
    | none => none
    | some s' => Server.run template patients s' sched

/-- Modelled from the spec: the server at the moment the concurrent calls have
all arrived and none has started (missing from the sources). -/
def Server.start (store : List StoredAppointment) (calls : List BookingCall) : Server :=
  { store := store, procs := calls.map (fun c => (c, Phase.waiting)) }

/-- Modelled from the spec: every request has returned (missing from the
sources). -/
def Server.allReturned (s : Server) : Bool :=
  s.procs.all (fun p => p.2.isReturned)

/-- Modelled from the spec: the number of requests whose phase satisfies `q`
(missing from the sources). -/
def Server.count (s : Server) (q : Phase → Bool) : Nat :=
  s.procs.countP (fun p => q p.2)

/-- Modelled from the spec: the number of calls that returned a created
appointment (missing from the sources). -/
def Server.successes (s : Server) : Nat :=
  s.count Phase.succeeded

/-- Modelled from the spec: the number of calls that returned `ConflictError`
(missing from the sources). -/
def Server.conflicts (s : Server) : Nat :=
  s.count Phase.conflicted

/-! ### Bookkeeping for the invariant of the server model -/

/-- The request has written its appointment: it is after the write or has
returned the created appointment. -/
def Phase.committed : Phase → Bool
  | .written _ => true
  | .returned (.created _) => true
  | _ => false

/-- The request has read the slot as free and has not written yet. -/
def Phase.sawFree : Phase → Bool
  | .checked true => true
  | _ => false

/-- The request has read the slot as taken. -/
def Phase.sawTaken : Phase → Bool
  | .checked false => true
  | .returned .conflictError => true
  | _ => false

/-- The request returned `ValidationError`. -/
def Phase.invalid : Phase → Bool
  | .returned .validationError => true
  | _ => false

/-- How far a request has come: the number of steps behind it, at least. -/
def Phase.rank : Phase → Nat
  | .waiting => 0
  | .entered => 1
  | .checked _ => 2
  | .written _ => 3
  | .returned _ => 4

/-- The sum of the ranks of the requests. -/
def Server.progress (s : Server) : Nat :=
  (s.procs.map (fun p => p.2.rank)).sum

/-- The invariant of the executions of `n` valid calls for the key `k` on a
store in which `k` was free: one request at most is inside the critical
section, the active appointments of `k` are those the requests have written,
a request that read the slot as free is still right, a request that read it as
taken saw an active appointment, no request failed validation, and `k` has one
active appointment at most. -/
def Server.Inv (template : String → String → List String) (patients : List String)
    (k : SlotKey) (n : Nat) (s : Server) : Prop :=
  s.procs.length = n ∧
  (∀ p ∈ s.procs, p.1.key = k ∧ validCall template patients p.1 = true) ∧
  s.count Phase.inside ≤ 1 ∧
  activeCount s.store k = s.count Phase.committed ∧
  (1 ≤ s.count Phase.sawFree → activeCount s.store k = 0) ∧
  (1 ≤ s.count Phase.sawTaken → 1 ≤ activeCount s.store k) ∧
  s.count Phase.invalid = 0 ∧
  activeCount s.store k ≤ 1

/-! ## Sample failures of the booking POST -/

/-- A rejection of `POST /api/appointments` with a conflict response: the slot
is already taken. -/
def conflictFailure : AxiosError :=
  { response := some { status := 409, data := some { detail := some (.str "Slot già prenotato") } } }

/-- A rejection of `POST /api/appointments` with a validation response. -/
def validationFailure : AxiosError :=
  { response := some { status := 422, data := some { detail := some (.str "Slot non valido") } } }

/-- A rejection of `POST /api/appointments` without a response: the server was
not reached. -/
def networkFailure : AxiosError :=
  { response := none }

/-- Modelled from the spec: the enumerated list of specializations of section
6, as the spec writes it. -/
def specListedSpecializations : List String :=
  ["Cardiology", "Dermatology", "Orthopedics", "Pediatrics", "Ophthalmology", "Gynecology",
   "Neurology", "Psychiatry", "Urology", "ENT", "Gastroenterology", "Endocrinology",
   "General Medicine"]

/-! ## Sample inputs -/

/-- Four appointments of a doctor, one in each status. -/
def sampleAppointments : List Appointment :=
  [{ appointment_id := "A1", patient_name := some "Anna Bianchi", doctor_name := "Rossi",
     specialization := "Cardiologia", date := "2024-05-01", time_slot := "09:00",
     status := "pending" },
   { appointment_id := "A2", patient_name := some "Luca Verdi", doctor_name := "Rossi",
     specialization := "Cardiologia", date := "2024-05-01", time_slot := "09:30",
     status := "confirmed" },
   { appointment_id := "A3", patient_name := none, doctor_name := "Rossi",
     specialization := "Cardiologia", date := "2024-05-02", time_slot := "09:00",
     status := "rejected" },
   { appointment_id := "A4", patient_name := some "Sara Neri", doctor_name := "Rossi",
     specialization := "Cardiologia", date := "2024-05-02", time_slot := "10:00",
     status := "cancelled" }]

/-- The dashboard after it has loaded the sample appointments. -/
def sampleDoctorState : DoctorState :=
  { view := "dashboard", appointments := sampleAppointments, filteredAppts := sampleAppointments,
    searchTerm := "", statusFilter := "all", uploadModal := none }

/-- An upload form with a file chosen. -/
def sampleUpload : UploadState :=
  { file := some "referto.pdf", notes := "nella norma" }

/-- The template of scenario A of the spec, for every doctor and date. -/
def sampleTemplate : String → String → List String :=
  fun _ _ => ["09:00", "09:30", "10:00"]

/-- Three patients. -/
def samplePatients : List String := ["P1", "P2", "P3"]

/-- The slot of scenario B of the spec. -/
def sampleKey : SlotKey :=
  { doctor_id := "D1", date := "2024-05-01", time_slot := "09:00" }

/-- A store in which the sample slot is free: another slot is held, and the
sample slot has only a cancelled appointment. -/
def sampleStore : List StoredAppointment :=
  [{ id := 0, patient_id := "P2", doctor_id := "D1", date := "2024-05-01", time_slot := "09:30",
     status := .confirmed, reason := "" },
   { id := 1, patient_id := "P3", doctor_id := "D1", date := "2024-05-01", time_slot := "09:00",
     status := .cancelled, reason := "" }]

/-- Three calls of `book` for the sample slot. -/
def sampleCalls : List BookingCall :=
  [{ patient_id := "P1", doctor_id := "D1", date := "2024-05-01", time_slot := "09:00",
     reason := "a" },
   { patient_id := "P2", doctor_id := "D1", date := "2024-05-01", time_slot := "09:00",
     reason := "b" },
   { patient_id := "P3", doctor_id := "D1", date := "2024-05-01", time_slot := "09:00",
     reason := "c" }]

/-- A schedule in which the second call enters first, then the third, then the
first. -/
def sampleSchedule : List Nat := [1, 1, 1, 1, 2, 2, 2, 0, 0, 0]

/-- The appointment the second sample call creates. -/
def sampleCreated : StoredAppointment :=
  { id := 2, patient_id := "P2", doctor_id := "D1", date := "2024-05-01", time_slot := "09:00",
    status := .pending, reason := "b" }

/-- The server at the end of the sample schedule. -/
def sampleFinal : Server :=
  { store := sampleStore ++ [sampleCreated],
    procs := [({ patient_id := "P1", doctor_id := "D1", date := "2024-05-01",
                 time_slot := "09:00", reason := "a" }, .returned .conflictError),
              ({ patient_id := "P2", doctor_id := "D1", date := "2024-05-01",
                 time_slot := "09:00", reason := "b" }, .returned (.created sampleCreated)),
              ({ patient_id := "P3", doctor_id := "D1", date := "2024-05-01",
                 time_slot := "09:00", reason := "c" }, .returned .conflictError)] }

/-! ## App (lines 23-68) -/

/-- The built-ins of JavaScript that `App` applies to values the embedding does
not spell out. `toText v` is `String(v)` for a value other than undefined, null
and a string; `stringify v` is `JSON.stringify(v)` for a value other than
undefined; `parse t` is `JSON.parse(t)`, and `none` when it throws. -/
structure Builtins where
  toText : JSVal → String
  stringify : JSVal → String
  parse : String → Option JSVal

/-- The string `localStorage.setItem` stores for a value; `none` is undefined. -/
def storedText (b : Builtins) : Option JSVal → String
  | none => "undefined"
  | some .null => "null"
  | some (.str s) => s
  | some (.bool v) => b.toText (.bool v)
  | some (.num n) => b.toText (.num n)
  | some (.object ref) => b.toText (.object ref)

/-- The result of `JSON.stringify`: undefined for undefined, a string otherwise. -/
def jsonStringify (b : Builtins) : Option JSVal → Option JSVal
  | none => none
  | some v => some (.str (b.stringify v))

/-- The result of `localStorage.getItem`: the stored string, or null. -/
def itemValue : Option String → JSVal
  | some t => .str t
  | none => .null

/-- The expression of line 25, `JSON.parse(localStorage.getItem('user') ||
'null')`, on the stored user; `none` when `JSON.parse` throws. -/
def parsedUser (b : Builtins) (storedUser : Option String) : Option JSVal :=
  if (itemValue storedUser).truthy then
    match storedUser with
    | some t => b.parse t
    | none => b.parse "null"
  else b.parse "null"

/-- The state of `App` together with the browser state it reads and writes:
the `useState` cells `token`, `user` and `showLogin`, the `localStorage` keys
`token` and `user`, and the default `Authorization` header of axios. In a cell
`none` is undefined; in `localStorage` and for the header `none` is an absent
key. -/
structure AppState where
  token : Option JSVal
  user : Option JSVal
  showLogin : Bool
  storedToken : Option String
  storedUser : Option String
  authorization : Option (Option JSVal)
  deriving DecidableEq

/-- The truthiness of `token`. -/
def AppState.hasToken (s : AppState) : Bool :=
  match s.token with
  | some v => v.truthy
  | none => false

/-- The truthiness of `user`. -/
def AppState.hasUser (s : AppState) : Bool :=
  match s.user with
  | some v => v.truthy
  | none => false

/-- A render of `App` evaluates the arguments of lines 24 and 25 again; it
completes when `JSON.parse` does not throw on the stored user. -/
def renders (b : Builtins) (s : AppState) : Bool :=
  (parsedUser b s.storedUser).isSome

/-- The first render, lines 24-26, on the given contents of `localStorage`:
`none` when line 25 throws. -/
def App.init (b : Builtins) (storedToken storedUser : Option String) : Option AppState :=
  match parsedUser b storedUser with
  | none => none
  | some u =>
    some { token := some (itemValue storedToken), user := some u, showLogin := false,
           storedToken := storedToken, storedUser := storedUser, authorization := none }

/-- The GET of the effect on `token`, line 31. -/
def getMe (apiUrl : String) : Request :=
  { method := .GET, url := apiUrl ++ "/api/users/me", query := [], body := .none }

/-- The synchronous part of the effect on `token`, lines 28-35: with a truthy
token the header is set and the GET is sent. -/
def tokenEffect (apiUrl : String) (s : AppState) : Outcome AppState :=
  if s.hasToken then
    { requests := [getMe apiUrl], toasts := [], calls := [],
      state := { s with authorization := some s.token } }
  else
    { requests := [], toasts := [], calls := [], state := s }

/-- The mount of `App`: the first render followed by the effect on `token`. -/
def App.mount (apiUrl : String) (b : Builtins) (storedToken storedUser : Option String) :
    Option (Outcome AppState) :=
  (App.init b storedToken storedUser).map (tokenEffect apiUrl)

/-- The function `login`, lines 37-44, on the arguments `handleSubmit` passes
(line 123): the properties `token` and `user` of the response data, whatever
they are. -/
def login (b : Builtins) (_s : AppState) (newToken newUser : Option JSVal) : AppState :=
  { token := newToken, user := newUser, showLogin := false,
    storedToken := some (storedText b newToken),
    storedUser := some (storedText b (jsonStringify b newUser)),
    authorization := some newToken }

/-- The function `logout`, lines 46-51. -/
def logout (_s : AppState) : AppState :=
  { token := some .null, user := some .null, showLogin := false,
    storedToken := none, storedUser := none, authorization := none }

/-- The `then` callback of the effect, line 32, on the data of the response. -/
def meLoaded (b : Builtins) (s : AppState) (data : Option JSVal) : AppState :=
  { s with user := data, storedUser := some (storedText b (jsonStringify b data)) }

/-- The render that follows a handler, and the effect on `token` when the
token has changed: `none` when the render throws. -/
def afterRender (apiUrl : String) (b : Builtins) (old new : AppState) :
    Option (Outcome AppState) :=
  if renders b new then
    if new.token ≠ old.token then some (tokenEffect apiUrl new)
    else some { requests := [], toasts := [], calls := [], state := new }
  else none

/-- What can happen to a mounted `App`. -/
inductive AppEvent
  | login (newToken : Option JSVal) (newUser : Option JSVal)
  | logout
  | meLoaded (data : Option JSVal)
  | meFailed
  | setShowLogin (v : Bool)
  deriving DecidableEq

/-- One event on `App`, followed by the render: `login` and `logout` are the
callbacks it passes down (lines 58, 59, 65), `meLoaded` and `meFailed` the two
outcomes of the GET of the effect (lines 32, 33), `setShowLogin` the buttons of
lines 65 and 67. `none` when the render throws. -/
def appStep (apiUrl : String) (b : Builtins) (s : AppState) :
    AppEvent → Option (Outcome AppState)
  | .login newToken newUser => afterRender apiUrl b s (login b s newToken newUser)
  | .logout => afterRender apiUrl b s (logout s)
  | .meLoaded data => afterRender apiUrl b s (meLoaded b s data)
  | .meFailed => afterRender apiUrl b s (logout s)
  | .setShowLogin v => afterRender apiUrl b s { s with showLogin := v }

/-- A sequence of events on `App`: the state at its end, `none` when some
render throws. -/
def appRun (apiUrl : String) (b : Builtins) : AppState → List AppEvent → Option AppState
  | s, [] => some s
  | s, e :: es =>
    match appStep apiUrl b s e with
    | none => none
    | some r => appRun apiUrl b r.state es

/-- What `App` renders, lines 53-67. -/
inductive Screen
  | patientDashboard
  | doctorDashboard
  | loginPage
  | homePage
  deriving DecidableEq

/-- The view selection of `App`, lines 53-67, `none` when the render throws at
line 25; `roleOf` reads the property `role` of the user. -/
def App.screen (b : Builtins) (roleOf : JSVal → JSVal) (s : AppState) : Option Screen :=
  if renders b s then
    match s.user with
    | some u =>
      if s.hasToken && u.truthy then
        if roleOf u = .str "patient" then some .patientDashboard else some .doctorDashboard
      else if s.showLogin then some .loginPage
      else some .homePage
    | none => if s.showLogin then some .loginPage else some .homePage
  else none

/-- The session is consistent: the token in memory is the stored token, null
when the key is absent, and the user in memory is what `JSON.parse` reads from
the stored user, null when the key is absent. -/
def AppState.consistent (b : Builtins) (s : AppState) : Prop :=
  s.token = some (itemValue s.storedToken) ∧
  ∃ u, s.user = some u ∧ parsedUser b s.storedUser = some u

/-- The value is one that `JSON.parse` reads back from its `JSON.stringify`
text. -/
def readsBack (b : Builtins) (v : JSVal) : Bool :=
  decide (b.parse (b.stringify v) = some v) && decide (b.stringify v ≠ "")

/-- The event carries what the login response and the user endpoint are
specified to return: a string as token and, as user, a value that is not
undefined and that `JSON.parse` reads back. -/
def AppEvent.wellFormed (b : Builtins) : AppEvent → Bool
  | .login (some (.str _)) (some u) => readsBack b u
  | .login _ _ => false
  | .meLoaded (some u) => readsBack b u
  | .meLoaded none => false
  | .logout => true
  | .meFailed => true
  | .setShowLogin _ => true

/-- A table standing for the built-ins on the values of the sample session:
null, and the object `1` as an empty object. -/
def sampleBuiltins : Builtins :=
  { toText := fun _ => "[object Object]",
    stringify := fun v => if v = .object 1 then "\x7b\x7d" else "null",
    parse := fun t =>
      if t = "null" then some .null else if t = "\x7b\x7d" then some (.object 1) else none }

/-- The state of `App` mounted on an empty `localStorage`. -/
def sampleApp : AppState :=
  { token := some .null, user := some .null, showLogin := false, storedToken := none,
    storedUser := none, authorization := none }

/-- A session: a login, a refresh of the user, a logout, a failed refresh. -/
def sampleSession : List AppEvent :=
  [.login (some (.str "tok")) (some (.object 1)), .meLoaded (some (.object 1)),
   .setShowLogin true, .logout, .meFailed]

/-! ## Dashboard statistics (lines 196-200) -/

structure Stats where
  total : Nat
  pending : Nat
  today : Nat
  deriving DecidableEq

/-- The object computed by `stats`, lines 196-200; `today` is the date part of
`new Date().toISOString()`. -/
def stats (today : String) (appointments : List Appointment) : Stats :=
  { total := appointments.length,
    pending := (appointments.filter (fun a => a.status = "pending")).length,
    today := (appointments.filter (fun a => a.date = today)).length }

/-- The cards of lines 226-228: title and value. -/
def statCards (today : String) (appointments : List Appointment) : List (String × Nat) :=
  [("Totale", (stats today appointments).total),
   ("Da Accettare", (stats today appointments).pending),
   ("Oggi", (stats today appointments).today)]

/-! ## The filter of the dashboard, as the spec words it -/

/-- The patient name contains the search term, case-insensitively; an
appointment without a patient name does not match. -/
def matchesSearch (lower : String → String) (searchTerm : String) (a : Appointment) : Bool :=
  match a.patient_name with
  | some n => jsIncludes (lower n) (lower searchTerm)
  | none => false

/-- The appointment passes the search term (when it is not empty) and the
status filter (when it is not `all`). -/
def keptByFilters (lower : String → String) (searchTerm statusFilter : String)
    (a : Appointment) : Bool :=
  (decide (searchTerm = "") || matchesSearch lower searchTerm a)
    && (decide (statusFilter = "all") || decide (a.status = statusFilter))

/-! ## The slot invariant of the booking form, as the spec words it -/

/-- The selected slot is empty or one of the slots shown. -/
def slotInvariant (s : BookState) : Bool :=
  decide (s.selectedSlot = "") || decide (s.selectedSlot ∈ s.slots)

/-- A booking in which the date is changed after a slot was chosen. -/
def staleSlotEvents : List BookEvent :=
  [.selectSpec "Cardiologia",
   .doctorsLoaded [{ user_id := "D1", name := "Mario", surname := "Rossi" }],
   .selectDoc "D1",
   .setDate "2024-05-01",
   .slotsLoaded ["09:00", "09:30"],
   .clickSlot "09:00",
   .setDate "2024-05-02",
   .slotsLoaded ["10:00"],
   .submit (.ok ())]

/-- The booking form at the end of `staleSlotEvents`. -/
def staleSlotFinal : BookState :=
  { spec := "Cardiologia", doctors := [{ user_id := "D1", name := "Mario", surname := "Rossi" }],
    selectedDoc := "D1", date := "2024-05-02", slots := ["10:00"], selectedSlot := "09:00",
    reason := "" }

/-- The requests sent during `staleSlotEvents`. -/
def staleSlotRequests : List Request :=
  [getDoctors "" "Cardiologia", getAvailability "" "D1" "2024-05-01",
   getAvailability "" "D1" "2024-05-02", bookingRequest "" staleSlotFinal]


/-! ## The opening of the upload modal -/

/-- In the run of `events` from `s` the upload modal was opened on `app`: at
some point of the run the dashboard view showed `app` in row `row` of the
list with status `confirmed`, and the event at that point is the click on the
upload button of that row. -/
def openedOn (apiUrl today : String) (lower : String → String) (s : DoctorState)
    (events : List DoctorEvent) (app : Appointment) : Prop :=
  ∃ n reqs0 s0 row button patchOk res,
    doctorRun apiUrl today lower s (events.take n) = some (reqs0, s0) ∧
    events[n]? = some (DoctorEvent.click row button patchOk res) ∧
    s0.view = "dashboard" ∧
    s0.filteredAppts[row]? = some app ∧
    app.status = "confirmed" ∧
    (doctorRowActions app)[button]? = some (DoctorAction.setUploadModal app)


/-! ## A response that carries the network message -/

/-- A rejection with a response whose `detail` is the text that
`getErrorMessage` uses for a missing response. -/
def echoedNetworkText : AxiosError :=
  ⟨some ⟨502, some ⟨some (.str "Errore di rete o server non raggiungibile")⟩⟩⟩

/-! ## Theorems -/

theorem doctorRowActions_update_iff (app : Appointment) (id status : String) :
    DoctorAction.updateStatus id status ∈ doctorRowActions app ↔
      app.status = "pending" ∧ id = app.appointment_id ∧
        (status = "confirmed" ∨ status = "rejected") := by
  unfold doctorRowActions
  by_cases hp : app.status = "pending"
  · have hc : ¬ app.status = "confirmed" := by rw [hp]; decide
    simp [hp]
    constructor
    · rintro (⟨h1, h2⟩ | ⟨h1, h2⟩) <;> simp [h1, h2]
    · rintro ⟨h1, h2 | h2⟩ <;> simp [h1, h2]
  · by_cases hc : app.status = "confirmed" <;> simp [hp, hc]

theorem doctorRowActions_upload_iff (app a : Appointment) :
    DoctorAction.setUploadModal a ∈ doctorRowActions app ↔
      app.status = "confirmed" ∧ a = app := by
  unfold doctorRowActions
  by_cases hp : app.status = "pending"
  · have hc : ¬ app.status = "confirmed" := by rw [hp]; decide
    simp [hp, hc]
  · by_cases hc : app.status = "confirmed" <;> simp [hp, hc]

/-- The requests one event of the dashboard can issue. -/
theorem doctorStep_requests (apiUrl today : String) (lower : String → String)
    (s : DoctorState) (e : DoctorEvent) (r : Outcome DoctorState)
    (h : doctorStep apiUrl today lower s e = some r) :
    ∀ q ∈ r.requests,
      q = getMyAppointments apiUrl ∨
      (∃ app ∈ s.filteredAppts, app.status = "pending" ∧
        ∃ st, (st = "confirmed" ∨ st = "rejected") ∧
          q = patchStatus apiUrl app.appointment_id st) ∨
      (∃ app form, s.uploadModal = some app ∧ q = uploadRequest apiUrl today app form) := by
  intro q hq
  cases e with
  | fetchData res =>
    simp only [doctorStep, Option.some.injEq] at h
    subst h
    cases res <;> simp [fetchData] at hq <;> exact Or.inl hq
  | setView v =>
    simp only [doctorStep] at h
    split at h
    · simp only [Option.some.injEq] at h; subst h; simp at hq
    · simp at h
  | setSearchTerm v =>
    simp only [doctorStep] at h
    split at h
    · simp only [Option.some.injEq] at h; subst h; simp at hq
    · simp at h
  | setStatusFilter v =>
    simp only [doctorStep] at h
    split at h
    · simp only [Option.some.injEq] at h; subst h; simp at hq
    · simp at h
  | click row button patchOk res =>
    simp only [doctorStep] at h
    split at h
    · split at h
      · rename_i hv app0 actions hrow
        simp only [doctorRows, List.getElem?_map] at hrow
        cases hget : s.filteredAppts[row]? with
        | none => simp [hget] at hrow
        | some app =>
          simp only [hget, Option.map_some', Option.some.injEq, Prod.mk.injEq] at hrow
          obtain ⟨h1, h2⟩ := hrow
          subst h1
          subst h2
          have hmem : app ∈ s.filteredAppts := List.getElem?_mem hget
          split at h
          · rename_i id status hact
            have hin := (doctorRowActions_update_iff app id status).1 (List.getElem?_mem hact)
            obtain ⟨hp, hid, hst⟩ := hin
            simp only [Option.some.injEq] at h
            subst h
            subst hid
            cases patchOk
            · simp [updateStatus] at hq
              exact Or.inr (Or.inl ⟨app, hmem, hp, status, hst, hq⟩)
            · cases res <;> simp [updateStatus, fetchData] at hq
              all_goals
                rcases hq with hq | hq
                · exact Or.inr (Or.inl ⟨app, hmem, hp, status, hst, hq⟩)
                · exact Or.inl hq
          · simp only [Option.some.injEq] at h; subst h; simp at hq
          · simp at h
      · simp at h
    · simp at h
  | closeModal =>
    simp only [doctorStep] at h
    split at h
    · simp only [Option.some.injEq] at h; subst h; simp at hq
    · simp at h
  | upload form ok =>
    simp only [doctorStep] at h
    split at h
    · rename_i app hm
      simp only [Option.some.injEq] at h
      subst h
      cases ok <;> simp [handleUpload] at hq <;>
        exact Or.inr (Or.inr ⟨app, form, hm, hq⟩)
    · simp at h

/-- The appointment of the upload modal after one event: the previous one, or
a confirmed appointment of the rows on which the upload button was clicked. -/
theorem doctorStep_modal (apiUrl today : String) (lower : String → String)
    (s : DoctorState) (e : DoctorEvent) (r : Outcome DoctorState)
    (h : doctorStep apiUrl today lower s e = some r) (a : Appointment)
    (ha : r.state.uploadModal = some a) :
    s.uploadModal = some a ∨ (a ∈ s.filteredAppts ∧ a.status = "confirmed") := by
  cases e with
  | fetchData res =>
    simp only [doctorStep, Option.some.injEq] at h
    subst h
    cases res <;> simp [fetchData, filterEffect] at ha <;> exact Or.inl ha
  | setView v =>
    simp only [doctorStep] at h
    split at h
    · simp only [Option.some.injEq] at h; subst h; exact Or.inl ha
    · simp at h
  | setSearchTerm v =>
    simp only [doctorStep] at h
    split at h
    · simp only [Option.some.injEq] at h; subst h; exact Or.inl ha
    · simp at h
  | setStatusFilter v =>
    simp only [doctorStep] at h
    split at h
    · simp only [Option.some.injEq] at h; subst h; exact Or.inl ha
    · simp at h
  | click row button patchOk res =>
    simp only [doctorStep] at h
    split at h
    · split at h
      · rename_i hv app0 actions hrow
        simp only [doctorRows, List.getElem?_map] at hrow
        cases hget : s.filteredAppts[row]? with
        | none => simp [hget] at hrow
        | some app =>
          simp only [hget, Option.map_some', Option.some.injEq, Prod.mk.injEq] at hrow
          obtain ⟨h1, h2⟩ := hrow
          subst h1
          subst h2
          have hmem : app ∈ s.filteredAppts := List.getElem?_mem hget
          split at h
          · simp only [Option.some.injEq] at h
            subst h
            cases patchOk
            · exact Or.inl ha
            · cases res <;> simp [updateStatus, fetchData, filterEffect] at ha <;> exact Or.inl ha
          · rename_i app1 hact
            have hin := (doctorRowActions_upload_iff app app1).1 (List.getElem?_mem hact)
            simp only [Option.some.injEq] at h
            subst h
            simp only [Option.some.injEq] at ha
            subst ha
            obtain ⟨hc, he⟩ := hin
            subst he
            exact Or.inr ⟨hmem, hc⟩
          · simp at h
      · simp at h
    · simp at h
  | closeModal =>
    simp only [doctorStep] at h
    split at h
    · simp only [Option.some.injEq] at h; subst h; simp at ha
    · simp at h
  | upload form ok =>
    simp only [doctorStep] at h
    split at h
    · simp only [Option.some.injEq] at h
      subst h
      cases ok <;> simp [handleUpload] at ha
      exact Or.inl ha
    · simp at h

/-- The requests of a sequence of dashboard events, and the appointment of the
upload modal at its end, when the modal starts with an appointment satisfying
`P` and every confirmed appointment satisfies `P`. -/
theorem doctorRun_requests (apiUrl today : String) (lower : String → String)
    (P : Appointment → Prop) (hP : ∀ a, a.status = "confirmed" → P a)
    (events : List DoctorEvent) :
    ∀ (s : DoctorState) (reqs : List Request) (s' : DoctorState),
      (∀ a, s.uploadModal = some a → P a) →
      doctorRun apiUrl today lower s events = some (reqs, s') →
      (∀ q ∈ reqs,
        q = getMyAppointments apiUrl ∨
        (∃ id st, (st = "confirmed" ∨ st = "rejected") ∧ q = patchStatus apiUrl id st) ∨
        (∃ app form, P app ∧ q = uploadRequest apiUrl today app form)) ∧
      (∀ a, s'.uploadModal = some a → P a) := by
  induction events with
  | nil =>
    intro s reqs s' hm h
    simp only [doctorRun, Option.some.injEq, Prod.mk.injEq] at h
    obtain ⟨h1, h2⟩ := h
    subst h1
    subst h2
    exact ⟨by simp, hm⟩
  | cons e es ih =>
    intro s reqs s' hm h
    simp only [doctorRun] at h
    cases hstep : doctorStep apiUrl today lower s e with
    | none => simp [hstep] at h
    | some r =>
      simp only [hstep] at h
      cases hrest : doctorRun apiUrl today lower r.state es with
      | none => simp [hrest] at h
      | some p =>
        obtain ⟨reqs2, s2⟩ := p
        simp only [hrest, Option.some.injEq, Prod.mk.injEq] at h
        obtain ⟨h1, h2⟩ := h
        subst h1
        subst h2
        have hm' : ∀ a, r.state.uploadModal = some a → P a := by
          intro a ha
          rcases doctorStep_modal apiUrl today lower s e r hstep a ha with h0 | ⟨_, hc⟩
          · exact hm a h0
          · exact hP a hc
        obtain ⟨ih1, ih2⟩ := ih r.state reqs2 s2 hm' hrest
        refine ⟨?_, ih2⟩
        intro q hq
        rcases List.mem_append.1 hq with hq | hq
        · rcases doctorStep_requests apiUrl today lower s e r hstep q hq with
            h0 | ⟨app, _, _, st, hst, h0⟩ | ⟨app, form, hmod, h0⟩
          · exact Or.inl h0
          · exact Or.inr (Or.inl ⟨app.appointment_id, st, hst, h0⟩)
          · exact Or.inr (Or.inr ⟨app, form, hm app hmod, h0⟩)
        · exact ih1 q hq

/-- C1: in every row of the doctor dashboard the confirm button and the reject
button are rendered exactly when the status of the appointment is `pending`;
every `updateStatus` handler of a row carries the id of that row and the target
`confirmed` or `rejected`; and in every sequence of events on the dashboard each
PATCH sent is the one of `updateStatus` with `status` parameter `confirmed` or
`rejected`. -/
theorem doctor_status_actions_iff_pending (apiUrl today : String) (lower : String → String)
    (s : DoctorState) :
    (∀ row ∈ doctorRows s,
      (DoctorAction.updateStatus row.1.appointment_id "confirmed" ∈ row.2 ↔
        row.1.status = "pending") ∧
      (DoctorAction.updateStatus row.1.appointment_id "rejected" ∈ row.2 ↔
        row.1.status = "pending") ∧
      (∀ id status, DoctorAction.updateStatus id status ∈ row.2 →
        row.1.status = "pending" ∧ id = row.1.appointment_id ∧
          (status = "confirmed" ∨ status = "rejected"))) ∧
    (∀ call ∈ doctorUpdateCalls s, call.2 = "confirmed" ∨ call.2 = "rejected") ∧
    (∀ id status, (patchStatus apiUrl id status).method = Method.PATCH ∧
      (patchStatus apiUrl id status).url = apiUrl ++ "/api/appointments/" ++ id ++ "/status" ∧
      (patchStatus apiUrl id status).query = [("status", status)]) ∧
    (∀ events reqs s', doctorRun apiUrl today lower s events = some (reqs, s') →
      ∀ q ∈ reqs, q.method = Method.PATCH →
        ∃ id st, (st = "confirmed" ∨ st = "rejected") ∧ q = patchStatus apiUrl id st ∧
          q.query = [("status", st)]) := by
  refine ⟨?_, ?_, ?_, ?_⟩
  · intro row hrow
    simp only [doctorRows, List.mem_map] at hrow
    obtain ⟨app, _, rfl⟩ := hrow
    refine ⟨?_, ?_, ?_⟩
    · rw [doctorRowActions_update_iff]; simp
    · rw [doctorRowActions_update_iff]; simp
    · intro id status h
      exact (doctorRowActions_update_iff app id status).1 h
  · intro call hcall
    simp only [doctorUpdateCalls, doctorRows, List.mem_flatMap, List.mem_map,
      List.mem_filterMap] at hcall
    obtain ⟨row, ⟨app, _, rfl⟩, act, hact, hsome⟩ := hcall
    cases act with
    | updateStatus id status =>
      simp only [Option.some.injEq] at hsome
      subst hsome
      exact ((doctorRowActions_update_iff app id status).1 hact).2.2
    | setUploadModal a => simp at hsome
  · intro id status
    exact ⟨rfl, rfl, rfl⟩
  · intro events reqs s' hrun q hq hmeth
    rcases (doctorRun_requests apiUrl today lower (fun _ => True) (fun _ _ => trivial)
      events s reqs s' (fun _ _ => trivial) hrun).1 q hq with
      h0 | ⟨id, st, hst, h0⟩ | ⟨app, form, _, h0⟩
    · subst h0; simp [getMyAppointments] at hmeth
    · exact ⟨id, st, hst, h0, by subst h0; rfl⟩
    · subst h0; simp [uploadRequest] at hmeth

/-- C2: in the patient view the cancel button of a card is rendered exactly when
the status of the appointment is `pending`, so a card of a `confirmed`,
`rejected` or `cancelled` appointment has no action; and `cancel` sends the
DELETE of the appointment exactly when the confirmation dialog answers true:
when it answers false nothing is sent, shown or changed. -/
theorem patient_cancel_iff_pending (apiUrl : String) (appointments : List Appointment) :
    (∀ card ∈ patientCards appointments,
      (PatientAction.cancel card.1.appointment_id ∈ card.2 ↔ card.1.status = "pending") ∧
      (∀ id, PatientAction.cancel id ∈ card.2 →
        card.1.status = "pending" ∧ id = card.1.appointment_id) ∧
      (card.1.status = "confirmed" ∨ card.1.status = "rejected" ∨
        card.1.status = "cancelled" → card.2 = [])) ∧
    (∀ id confirm deleteOk res,
      (deleteAppointment apiUrl id ∈
          (cancel apiUrl appointments id confirm deleteOk res).requests ↔ confirm = true) ∧
      (∀ q ∈ (cancel apiUrl appointments id confirm deleteOk res).requests,
        q.method = Method.DELETE → q = deleteAppointment apiUrl id ∧ confirm = true) ∧
      (confirm = false →
        (cancel apiUrl appointments id confirm deleteOk res).requests = [] ∧
        (cancel apiUrl appointments id confirm deleteOk res).toasts = [] ∧
        (cancel apiUrl appointments id confirm deleteOk res).state = appointments)) ∧
    (∀ id, (deleteAppointment apiUrl id).method = Method.DELETE ∧
      (deleteAppointment apiUrl id).url = apiUrl ++ "/api/appointments/" ++ id) := by
  refine ⟨?_, ?_, fun id => ⟨rfl, rfl⟩⟩
  · intro card hcard
    simp only [patientCards, List.mem_map] at hcard
    obtain ⟨a, _, rfl⟩ := hcard
    simp only [patientCardActions]
    by_cases hp : a.status = "pending"
    · simp [hp]
    · simp only [hp, if_false, List.not_mem_nil, false_iff, not_false_eq_true, true_and,
        implies_true, and_true]
      intro id h
      exact absurd h (by simp)
  · intro id confirm deleteOk res
    cases confirm <;> cases deleteOk <;> cases res <;>
      simp [cancel, deleteAppointment, getMyAppointments]

/-- The upload button and the status buttons of a row never occur together. -/
theorem doctorRowActions_exclusive (app a : Appointment) (id status : String)
    (h1 : DoctorAction.setUploadModal a ∈ doctorRowActions app)
    (h2 : DoctorAction.updateStatus id status ∈ doctorRowActions app) : False := by
  have hc := ((doctorRowActions_upload_iff app a).1 h1).1
  have hp := ((doctorRowActions_update_iff app id status).1 h2).1
  rw [hp] at hc
  exact absurd hc (by decide)

/-- The appointment of the upload modal after one event: the previous one, or
the confirmed appointment of the row whose upload button the event clicks. -/
theorem doctorStep_modal_opened (apiUrl today : String) (lower : String → String)
    (s : DoctorState) (e : DoctorEvent) (r : Outcome DoctorState)
    (h : doctorStep apiUrl today lower s e = some r) (a : Appointment)
    (ha : r.state.uploadModal = some a) :
    s.uploadModal = some a ∨
    ∃ row button patchOk res, e = DoctorEvent.click row button patchOk res ∧
      s.view = "dashboard" ∧ s.filteredAppts[row]? = some a ∧ a.status = "confirmed" ∧
      (doctorRowActions a)[button]? = some (DoctorAction.setUploadModal a) := by
  cases e with
  | fetchData res =>
    simp only [doctorStep, Option.some.injEq] at h
    subst h
    cases res <;> simp [fetchData, filterEffect] at ha <;> exact Or.inl ha
  | setView v =>
    simp only [doctorStep] at h
    split at h
    · simp only [Option.some.injEq] at h; subst h; exact Or.inl ha
    · simp at h
  | setSearchTerm v =>
    simp only [doctorStep] at h
    split at h
    · simp only [Option.some.injEq] at h; subst h; exact Or.inl ha
    · simp at h
  | setStatusFilter v =>
    simp only [doctorStep] at h
    split at h
    · simp only [Option.some.injEq] at h; subst h; exact Or.inl ha
    · simp at h
  | click row button patchOk res =>
    simp only [doctorStep] at h
    split at h
    · rename_i hv
      split at h
      · rename_i app0 actions hrow
        simp only [doctorRows, List.getElem?_map] at hrow
        cases hget : s.filteredAppts[row]? with
        | none => simp [hget] at hrow
        | some app =>
          simp only [hget, Option.map_some', Option.some.injEq, Prod.mk.injEq] at hrow
          obtain ⟨h1, h2⟩ := hrow
          subst h1
          subst h2
          split at h
          · simp only [Option.some.injEq] at h
            subst h
            cases patchOk
            · exact Or.inl ha
            · cases res <;> simp [updateStatus, fetchData, filterEffect] at ha <;> exact Or.inl ha
          · rename_i app1 hact
            have hin := (doctorRowActions_upload_iff app app1).1 (List.getElem?_mem hact)
            simp only [Option.some.injEq] at h
            subst h
            simp only [Option.some.injEq] at ha
            subst ha
            obtain ⟨hc, he⟩ := hin
            subst he
            exact Or.inr ⟨row, button, patchOk, res, rfl, hv, hget, hc, hact⟩
          · simp at h
      · simp at h
    · simp at h
  | closeModal =>
    simp only [doctorStep] at h
    split at h
    · simp only [Option.some.injEq] at h; subst h; simp at ha
    · simp at h
  | upload form ok =>
    simp only [doctorStep] at h
    split at h
    · simp only [Option.some.injEq] at h
      subst h
      cases ok <;> simp [handleUpload] at ha
      exact Or.inl ha
    · simp at h

/-- An opening of the modal in the rest of a run is an opening in the run. -/
theorem openedOn_cons (apiUrl today : String) (lower : String → String) (s : DoctorState)
    (e : DoctorEvent) (es : List DoctorEvent) (r : Outcome DoctorState) (a : Appointment)
    (hstep : doctorStep apiUrl today lower s e = some r)
    (h : openedOn apiUrl today lower r.state es a) :
    openedOn apiUrl today lower s (e :: es) a := by
  obtain ⟨n, reqs0, s0, row, button, patchOk, res, hrun, hev, hrest⟩ := h
  refine ⟨n + 1, r.requests ++ reqs0, s0, row, button, patchOk, res, ?_, ?_, hrest⟩
  · simp [doctorRun, hstep, hrun]
  · simpa using hev

/-- In a run of the dashboard every upload request is built from an
appointment that the modal held from the start or was opened on during the run,
and so is the appointment the modal holds at the end. -/
theorem doctorRun_opened (apiUrl today : String) (lower : String → String)
    (events : List DoctorEvent) :
    ∀ (s : DoctorState) (reqs : List Request) (s' : DoctorState),
      doctorRun apiUrl today lower s events = some (reqs, s') →
      (∀ a, s'.uploadModal = some a →
        s.uploadModal = some a ∨ openedOn apiUrl today lower s events a) ∧
      (∀ q ∈ reqs, q.method = Method.POST →
        ∃ app form, q = uploadRequest apiUrl today app form ∧
          (s.uploadModal = some app ∨ openedOn apiUrl today lower s events app)) := by
  induction events with
  | nil =>
    intro s reqs s' h
    simp only [doctorRun, Option.some.injEq, Prod.mk.injEq] at h
    obtain ⟨h1, h2⟩ := h
    subst h1
    subst h2
    exact ⟨fun a ha => Or.inl ha, by simp⟩
  | cons e es ih =>
    intro s reqs s' h
    simp only [doctorRun] at h
    cases hstep : doctorStep apiUrl today lower s e with
    | none => simp [hstep] at h
    | some r =>
      simp only [hstep] at h
      cases hrest : doctorRun apiUrl today lower r.state es with
      | none => simp [hrest] at h
      | some p =>
        obtain ⟨reqs2, s2⟩ := p
        simp only [hrest, Option.some.injEq, Prod.mk.injEq] at h
        obtain ⟨h1, h2⟩ := h
        subst h1
        subst h2
        obtain ⟨ih1, ih2⟩ := ih r.state reqs2 s2 hrest
        have lift : ∀ a, (r.state.uploadModal = some a ∨
            openedOn apiUrl today lower r.state es a) →
            s.uploadModal = some a ∨ openedOn apiUrl today lower s (e :: es) a := by
          intro a ha
          rcases ha with ha | ha
          · rcases doctorStep_modal_opened apiUrl today lower s e r hstep a ha with
              h0 | ⟨row, button, patchOk, res, he, hv, hget, hc, hact⟩
            · exact Or.inl h0
            · refine Or.inr ⟨0, [], s, row, button, patchOk, res, by simp [doctorRun], ?_, hv,
                hget, hc, hact⟩
              simp [he]
          · exact Or.inr (openedOn_cons apiUrl today lower s e es r a hstep ha)
        refine ⟨fun a ha => lift a (ih1 a ha), ?_⟩
        intro q hq hmeth
        rcases List.mem_append.1 hq with hq | hq
        · rcases doctorStep_requests apiUrl today lower s e r hstep q hq with
            h0 | ⟨app, _, _, st, _, h0⟩ | ⟨app, form, hmod, h0⟩
          · subst h0; simp [getMyAppointments] at hmeth
          · subst h0; simp [patchStatus] at hmeth
          · exact ⟨app, form, h0, Or.inl hmod⟩
        · obtain ⟨app, form, hq2, hor⟩ := ih2 q hq hmeth
          exact ⟨app, form, hq2, lift app hor⟩

/-- C3: in every row of the doctor dashboard the upload button is rendered
exactly when the status of the appointment is `confirmed`, it opens the modal
on the appointment of that row, and it never stands next to a confirm or reject
button. An upload event sends the one request built from the appointment the
modal holds. In every sequence of events from the initial dashboard, each
upload request carries the `appointment_id` of an appointment on which the
modal was opened earlier in that sequence: an appointment that the list then
shown held with status `confirmed`, in the row whose upload button was
clicked; and the modal holds only such an appointment. -/
theorem upload_offered_iff_confirmed (apiUrl today : String) (lower : String → String) :
    (∀ s : DoctorState, ∀ row ∈ doctorRows s,
      (DoctorAction.setUploadModal row.1 ∈ row.2 ↔ row.1.status = "confirmed") ∧
      (∀ a, DoctorAction.setUploadModal a ∈ row.2 → a = row.1 ∧ row.1.status = "confirmed") ∧
      (∀ a id status, ¬ (DoctorAction.setUploadModal a ∈ row.2 ∧
        DoctorAction.updateStatus id status ∈ row.2)) ∧
      (row.1.status = "pending" ∨ row.1.status = "rejected" ∨ row.1.status = "cancelled" →
        ∀ a, DoctorAction.setUploadModal a ∉ row.2)) ∧
    (∀ s e r, doctorStep apiUrl today lower s e = some r →
      ∀ a, r.state.uploadModal = some a →
        s.uploadModal = some a ∨
        ∃ row button patchOk res, e = DoctorEvent.click row button patchOk res ∧
          s.view = "dashboard" ∧ s.filteredAppts[row]? = some a ∧ a.status = "confirmed" ∧
          (doctorRowActions a)[button]? = some (DoctorAction.setUploadModal a)) ∧
    (∀ s form ok r, doctorStep apiUrl today lower s (.upload form ok) = some r →
      ∃ app, s.uploadModal = some app ∧
        r.requests = [uploadRequest apiUrl today app form]) ∧
    (∀ s e r, doctorStep apiUrl today lower s e = some r →
      ∀ q ∈ r.requests, q.method = Method.POST →
        ∃ app form, s.uploadModal = some app ∧ q = uploadRequest apiUrl today app form) ∧
    (∀ events reqs s',
      doctorRun apiUrl today lower DoctorState.init events = some (reqs, s') →
      (∀ q ∈ reqs, q.method = Method.POST →
        ∃ app form, openedOn apiUrl today lower DoctorState.init events app ∧
          q = uploadRequest apiUrl today app form ∧
          q.query.lookup "appointment_id" = some app.appointment_id) ∧
      (∀ a, s'.uploadModal = some a →
        openedOn apiUrl today lower DoctorState.init events a)) := by
  refine ⟨?_, ?_, ?_, ?_, ?_⟩
  · intro s row hrow
    simp only [doctorRows, List.mem_map] at hrow
    obtain ⟨app, _, rfl⟩ := hrow
    refine ⟨?_, ?_, ?_, ?_⟩
    · rw [doctorRowActions_upload_iff]; simp
    · intro a h
      have := (doctorRowActions_upload_iff app a).1 h
      exact ⟨this.2, this.1⟩
    · intro a id status h
      exact doctorRowActions_exclusive app a id status h.1 h.2
    · intro hst a h
      have hc := ((doctorRowActions_upload_iff app a).1 h).1
      simp only at hst
      rw [hc] at hst
      revert hst
      decide
  · intro s e r h a ha
    exact doctorStep_modal_opened apiUrl today lower s e r h a ha
  · intro s form ok r h
    simp only [doctorStep] at h
    split at h
    · rename_i app hm
      simp only [Option.some.injEq] at h
      subst h
      exact ⟨app, hm, by cases ok <;> rfl⟩
    · simp at h
  · intro s e r h q hq hmeth
    rcases doctorStep_requests apiUrl today lower s e r h q hq with
      h0 | ⟨app, _, _, st, _, h0⟩ | ⟨app, form, hmod, h0⟩
    · subst h0; simp [getMyAppointments] at hmeth
    · subst h0; simp [patchStatus] at hmeth
    · exact ⟨app, form, hmod, h0⟩
  · intro events reqs s' hrun
    obtain ⟨k1, k2⟩ := doctorRun_opened apiUrl today lower events DoctorState.init reqs s' hrun
    refine ⟨?_, ?_⟩
    · intro q hq hmeth
      obtain ⟨app, form, h0, hor⟩ := k2 q hq hmeth
      rcases hor with hor | hor
      · simp [DoctorState.init] at hor
      · refine ⟨app, form, hor, h0, ?_⟩
        subst h0
        simp [uploadRequest, List.lookup]
    · intro a ha
      rcases k1 a ha with hor | hor
      · simp [DoctorState.init] at hor
      · exact hor

/-- C4: whatever the state of the booking form and the outcome of the call,
`submit` sends one request, a POST to `/api/appointments` whose body has exactly
the keys `doctor_id`, `date`, `time_slot` and `reason`, holding `selectedDoc`,
`date`, `selectedSlot` and `reason` of the form; there is no `patient_id` key. -/
theorem booking_body_four_fields (apiUrl : String) (s : BookState)
    (res : Except AxiosError Unit) :
    (submit apiUrl s res).requests = [bookingRequest apiUrl s] ∧
    (bookingRequest apiUrl s).method = Method.POST ∧
    (bookingRequest apiUrl s).url = apiUrl ++ "/api/appointments" ∧
    (bookingRequest apiUrl s).query = [] ∧
    (bookingRequest apiUrl s).body = Body.json (bookingBody s) ∧
    (bookingBody s).keys = ["doctor_id", "date", "time_slot", "reason"] ∧
    (bookingBody s).get "doctor_id" = some (JSVal.str s.selectedDoc) ∧
    (bookingBody s).get "date" = some (JSVal.str s.date) ∧
    (bookingBody s).get "time_slot" = some (JSVal.str s.selectedSlot) ∧
    (bookingBody s).get "reason" = some (JSVal.str s.reason) ∧
    (bookingBody s).get "patient_id" = none ∧
    (∀ k, k ∉ ["doctor_id", "date", "time_slot", "reason"] → (bookingBody s).get k = none) := by
  refine ⟨?_, rfl, rfl, rfl, rfl, rfl, ?_, ?_, ?_, ?_, ?_, ?_⟩
  · cases res <;> rfl
  · simp [bookingBody, JSObject.get, List.find?]
  · simp [bookingBody, JSObject.get, List.find?]
  · simp [bookingBody, JSObject.get, List.find?]
  · simp [bookingBody, JSObject.get, List.find?]
  · simp [bookingBody, JSObject.get, List.find?]
  · intro k hk
    simp only [List.mem_cons, List.mem_singleton, List.not_mem_nil, or_false, not_or] at hk
    obtain ⟨h1, h2, h3, h4⟩ := hk
    simp [bookingBody, JSObject.get, List.find?, Ne.symm h1, Ne.symm h2, Ne.symm h3, Ne.symm h4]

/-- C5: `submit` shows the same toast for a conflict response as for a network
failure (and for any other failure), although `getErrorMessage` tells the two
apart; on a failure `onSuccess` is not called and the form state is kept. -/
theorem submit_conflict_same_toast (apiUrl : String) (s : BookState) :
    (submit apiUrl s (.error conflictFailure)).toasts = [Toast.error (.str "Errore")] ∧
    (submit apiUrl s (.error networkFailure)).toasts = [Toast.error (.str "Errore")] ∧
    (submit apiUrl s (.error validationFailure)).toasts = [Toast.error (.str "Errore")] ∧
    getErrorMessage conflictFailure = .str "Slot già prenotato" ∧
    getErrorMessage networkFailure = .str "Errore di rete o server non raggiungibile" ∧
    getErrorMessage validationFailure = .str "Slot non valido" ∧
    (∀ e, (submit apiUrl s (.error e)).toasts = [Toast.error (.str "Errore")] ∧
      (submit apiUrl s (.error e)).calls = [] ∧ (submit apiUrl s (.error e)).state = s) := by
  refine ⟨rfl, rfl, rfl, ?_, rfl, ?_, fun e => ⟨rfl, rfl, rfl⟩⟩
  · simp [getErrorMessage, conflictFailure, JSVal.truthy]
  · simp [getErrorMessage, validationFailure, JSVal.truthy]

/-- The keys and values of the registration payload. -/
theorem registerPayload_eq (f : FormData) :
    registerPayload f =
      [("email", .str f.email), ("password", .str f.password), ("role", .str f.role),
       ("name", .str f.name), ("surname", .str f.surname), ("phone", .str f.phone),
       ("specialization", if f.role = "doctor" then .str f.specialization else .null)] := by
  simp [registerPayload, FormData.toObject, JSObject.set]

/-- C7: the body `handleSubmit` posts to `/api/auth/register` has the seven keys
of the form; its `specialization` is the one of the form when the role is
`doctor` and null for every other role, so it is not null only for a doctor;
every other field is the field of the form. -/
theorem register_specialization_only_for_doctor (apiUrl : String) (s : LoginState)
    (res : Except AxiosError (JSVal × JSVal)) :
    (handleSubmit apiUrl s res).requests = [authRequest apiUrl s] ∧
    (s.isLogin = false →
      (authRequest apiUrl s).method = Method.POST ∧
      (authRequest apiUrl s).url = apiUrl ++ "/api/auth/register" ∧
      (authRequest apiUrl s).body = Body.json (registerPayload s.formData)) ∧
    (registerPayload s.formData).keys =
      ["email", "password", "role", "name", "surname", "phone", "specialization"] ∧
    (s.formData.role = "doctor" →
      (registerPayload s.formData).get "specialization"
        = some (JSVal.str s.formData.specialization)) ∧
    (s.formData.role ≠ "doctor" →
      (registerPayload s.formData).get "specialization" = some JSVal.null) ∧
    ((registerPayload s.formData).get "specialization" ≠ some JSVal.null →
      s.formData.role = "doctor") ∧
    (registerPayload s.formData).get "email" = some (JSVal.str s.formData.email) ∧
    (registerPayload s.formData).get "password" = some (JSVal.str s.formData.password) ∧
    (registerPayload s.formData).get "role" = some (JSVal.str s.formData.role) ∧
    (registerPayload s.formData).get "name" = some (JSVal.str s.formData.name) ∧
    (registerPayload s.formData).get "surname" = some (JSVal.str s.formData.surname) ∧
    (registerPayload s.formData).get "phone" = some (JSVal.str s.formData.phone) := by
  have hget : (registerPayload s.formData).get "specialization"
      = some (if s.formData.role = "doctor" then .str s.formData.specialization else .null) := by
    rw [registerPayload_eq]
    simp [JSObject.get, List.find?]
  refine ⟨?_, ?_, ?_, ?_, ?_, ?_, ?_, ?_, ?_, ?_, ?_, ?_⟩
  · cases res with
    | error e => rfl
    | ok p =>
      obtain ⟨t, u⟩ := p
      simp only [handleSubmit]
      split <;> rfl
  · intro h
    simp [authRequest, h]
  · rw [registerPayload_eq]; rfl
  · intro h; rw [hget]; simp [h]
  · intro h; rw [hget]; simp [h]
  · intro h
    by_contra hr
    rw [hget] at h
    simp [hr] at h
  · rw [registerPayload_eq]; simp [JSObject.get, List.find?]
  · rw [registerPayload_eq]; simp [JSObject.get, List.find?]
  · rw [registerPayload_eq]; simp [JSObject.get, List.find?]
  · rw [registerPayload_eq]; simp [JSObject.get, List.find?]
  · rw [registerPayload_eq]; simp [JSObject.get, List.find?]
  · rw [registerPayload_eq]; simp [JSObject.get, List.find?]

/-- C8: `handleChangePass` sends a request exactly when the new password equals
its confirmation and has length at least 6, and then it is the one POST to
`/api/users/change-password` whose body has exactly the keys `old_password` and
`new_password`; otherwise nothing is sent and the state is unchanged, the toast
being the mismatch error whenever the two differ and the length error only when
they agree. -/
theorem change_password_sent_iff (apiUrl : String) (s : ProfileState)
    (res : Except AxiosError Unit) :
    ((handleChangePass apiUrl s res).requests ≠ [] ↔
      (s.passData.new_password = s.passData.confirm_password ∧
        6 ≤ jsLength s.passData.new_password)) ∧
    (s.passData.new_password = s.passData.confirm_password ∧
        6 ≤ jsLength s.passData.new_password →
      (handleChangePass apiUrl s res).requests = [changePasswordRequest apiUrl s.passData]) ∧
    (¬ (s.passData.new_password = s.passData.confirm_password ∧
        6 ≤ jsLength s.passData.new_password) →
      (handleChangePass apiUrl s res).requests = [] ∧
      (handleChangePass apiUrl s res).state = s) ∧
    (s.passData.new_password ≠ s.passData.confirm_password →
      (handleChangePass apiUrl s res).toasts
        = [Toast.error (.str "Le nuove password non coincidono!")]) ∧
    (s.passData.new_password = s.passData.confirm_password →
      jsLength s.passData.new_password < 6 →
      (handleChangePass apiUrl s res).toasts
        = [Toast.error (.str "La password deve essere di almeno 6 caratteri")]) ∧
    (changePasswordRequest apiUrl s.passData).method = Method.POST ∧
    (changePasswordRequest apiUrl s.passData).url = apiUrl ++ "/api/users/change-password" ∧
    (∃ o, (changePasswordRequest apiUrl s.passData).body = Body.json o ∧
      o.keys = ["old_password", "new_password"] ∧
      o.get "old_password" = some (JSVal.str s.passData.old_password) ∧
      o.get "new_password" = some (JSVal.str s.passData.new_password) ∧
      o.get "confirm_password" = none) := by
  obtain ⟨⟨o, n, c⟩, l⟩ := s
  simp only
  refine ⟨?_, ?_, ?_, ?_, ?_, rfl, rfl, ?_⟩
  · by_cases h1 : n = c
    · subst h1
      by_cases h2 : jsLength n < 6
      · simp [handleChangePass, h2]
      · have h3 : 6 ≤ jsLength n := by omega
        cases res <;> simp [handleChangePass, h2, h3]
    · simp [handleChangePass, h1]
  · rintro ⟨h1, h2⟩
    subst h1
    have h3 : ¬ jsLength n < 6 := by omega
    cases res <;> simp [handleChangePass, h3]
  · intro h
    by_cases h1 : n = c
    · subst h1
      have h2 : jsLength n < 6 := by
        by_contra hc
        exact h ⟨rfl, by omega⟩
      simp [handleChangePass, h2]
    · simp [handleChangePass, h1]
  · intro h1
    simp [handleChangePass, h1]
  · intro h1 h2
    subst h1
    simp [handleChangePass, h2]
  · refine ⟨_, rfl, rfl, ?_, ?_, ?_⟩ <;> simp [JSObject.get, List.find?]

/-- C10: after a status update that succeeded the dashboard sends
`GET /api/appointments/my` and, when that answers, its appointment list is the
answer; after a status update that failed it sends no GET and its state is
unchanged; after a cancellation that was confirmed and succeeded the patient
view sends the same GET and, when that answers, its list is the answer. -/
theorem refetch_after_change (apiUrl : String) (lower : String → String) :
    (∀ s id status res,
      (updateStatus apiUrl lower s id status true res).requests
        = [patchStatus apiUrl id status, getMyAppointments apiUrl] ∧
      (∀ data, res = some data →
        (updateStatus apiUrl lower s id status true res).state.appointments = data ∧
        (updateStatus apiUrl lower s id status true res).state.filteredAppts
          = applyFilters lower s.searchTerm s.statusFilter data)) ∧
    (∀ s id status res,
      (updateStatus apiUrl lower s id status false res).requests
        = [patchStatus apiUrl id status] ∧
      getMyAppointments apiUrl ∉ (updateStatus apiUrl lower s id status false res).requests ∧
      (updateStatus apiUrl lower s id status false res).state = s) ∧
    (∀ appointments id res,
      (cancel apiUrl appointments id true true res).requests
        = [deleteAppointment apiUrl id, getMyAppointments apiUrl] ∧
      (∀ data, res = some data →
        (cancel apiUrl appointments id true true res).state = data)) ∧
    (getMyAppointments apiUrl).method = Method.GET ∧
    (getMyAppointments apiUrl).url = apiUrl ++ "/api/appointments/my" := by
  refine ⟨?_, ?_, ?_, rfl, rfl⟩
  · intro s id status res
    cases res with
    | none => simp [updateStatus, fetchData]
    | some d => simp [updateStatus, fetchData, filterEffect]
  · intro s id status res
    simp [updateStatus, patchStatus, getMyAppointments]
  · intro appointments id res
    cases res <;> simp [cancel]

/-- The values the specialization select of the registration form offers. -/
theorem selectable_registerSpecOptions : selectable registerSpecOptions = SPECIALIZATIONS := by
  simp [selectable, registerSpecOptions, SPECIALIZATIONS]

/-- The values the specialization select of the booking form offers. -/
theorem selectable_bookSpecOptions : selectable bookSpecOptions = SPECIALIZATIONS := by
  simp [selectable, bookSpecOptions, SPECIALIZATIONS]

/-- The `specialization` of the body of the request of `handleSubmit`. -/
theorem authRequest_specialization (apiUrl : String) (s : LoginState) (o : JSObject) (v : String)
    (hb : (authRequest apiUrl s).body = Body.json o)
    (hv : o.get "specialization" = some (JSVal.str v)) :
    v = s.formData.specialization := by
  unfold authRequest at hb
  split at hb
  · simp only [Body.json.injEq] at hb
    subst hb
    simp [loginPayload, JSObject.get, List.find?] at hv
  · simp only [Body.json.injEq] at hb
    subst hb
    rw [registerPayload_eq] at hv
    simp [JSObject.get, List.find?] at hv
    split at hv
    · simp at hv; exact hv.symm
    · simp at hv

/-- One event of the login page sends at most the request of `handleSubmit` and
keeps the specialization of the form empty or in `SPECIALIZATIONS`. -/
theorem loginStep_specialization (apiUrl : String) (s : LoginState) (e : LoginEvent)
    (r : Outcome LoginState) (h : loginStep apiUrl s e = some r)
    (hinv : s.formData.specialization = "" ∨ s.formData.specialization ∈ SPECIALIZATIONS) :
    (∀ q ∈ r.requests, q = authRequest apiUrl s) ∧
    (r.state.formData.specialization = "" ∨
      r.state.formData.specialization ∈ SPECIALIZATIONS) := by
  cases e with
  | selectSpecialization v =>
    simp only [loginStep] at h
    split at h
    · rename_i hc
      simp only [Option.some.injEq] at h
      subst h
      rw [selectable_registerSpecOptions] at hc
      exact ⟨by simp, Or.inr hc.2.2⟩
    · simp at h
  | submit res =>
    simp only [loginStep, Option.some.injEq] at h
    subst h
    cases res with
    | error e => exact ⟨by simp [handleSubmit], hinv⟩
    | ok p =>
      obtain ⟨t, u⟩ := p
      simp only [handleSubmit]
      split
      · exact ⟨by simp, hinv⟩
      · exact ⟨by simp, hinv⟩
  | setName v | setSurname v | setPhone v | selectRole v =>
    simp only [loginStep] at h
    split at h
    · simp only [Option.some.injEq] at h; subst h; exact ⟨by simp, hinv⟩
    · simp at h
  | setEmail v | setPassword v =>
    simp only [loginStep, Option.some.injEq] at h
    subst h
    exact ⟨by simp, hinv⟩
  | toggle =>
    simp only [loginStep, Option.some.injEq] at h
    subst h
    exact ⟨by simp, hinv⟩

/-- Every specialization a sequence of events on the login page sends is empty
or in `SPECIALIZATIONS`. -/
theorem loginRun_specialization (apiUrl : String) (events : List LoginEvent) :
    ∀ (s : LoginState) (reqs : List Request) (s' : LoginState),
      (s.formData.specialization = "" ∨ s.formData.specialization ∈ SPECIALIZATIONS) →
      loginRun apiUrl s events = some (reqs, s') →
      ∀ q ∈ reqs, ∀ o v, q.body = Body.json o → o.get "specialization" = some (JSVal.str v) →
        v = "" ∨ v ∈ SPECIALIZATIONS := by
  induction events with
  | nil =>
    intro s reqs s' _ h
    simp only [loginRun, Option.some.injEq, Prod.mk.injEq] at h
    obtain ⟨h1, _⟩ := h
    subst h1
    simp
  | cons e es ih =>
    intro s reqs s' hinv h
    simp only [loginRun] at h
    cases hstep : loginStep apiUrl s e with
    | none => simp [hstep] at h
    | some r =>
      simp only [hstep] at h
      cases hrest : loginRun apiUrl r.state es with
      | none => simp [hrest] at h
      | some p =>
        obtain ⟨reqs2, s2⟩ := p
        simp only [hrest, Option.some.injEq, Prod.mk.injEq] at h
        obtain ⟨h1, h2⟩ := h
        subst h1
        subst h2
        obtain ⟨hreq, hinv'⟩ := loginStep_specialization apiUrl s e r hstep hinv
        intro q hq o v hb hv
        rcases List.mem_append.1 hq with hq | hq
        · have := hreq q hq
          subst this
          rw [authRequest_specialization apiUrl s o v hb hv]
          exact hinv
        · exact ih r.state reqs2 s2 hinv' hrest q hq o v hb hv

/-- The `specialization` query of a request one event of the booking form sends
is in `SPECIALIZATIONS`. -/
theorem bookStep_specialization (apiUrl : String) (s : BookState) (e : BookEvent)
    (r : Outcome BookState) (h : bookStep apiUrl s e = some r) :
    ∀ q ∈ r.requests, ∀ v, q.query.lookup "specialization" = some v → v ∈ SPECIALIZATIONS := by
  intro q hq v hv
  cases e with
  | selectSpec w =>
    simp only [bookStep] at h
    split at h
    · rename_i hc
      simp only [Option.some.injEq] at h
      subst h
      rw [selectable_bookSpecOptions] at hc
      simp only [specEffect] at hq
      split at hq
      · simp only [List.mem_singleton] at hq
        subst hq
        simp [getDoctors, List.lookup] at hv
        rw [← hv]; exact hc
      · simp at hq
    · simp at h
  | doctorsLoaded ds =>
    simp only [bookStep, Option.some.injEq] at h
    subst h
    simp at hq
  | slotsLoaded sl =>
    simp only [bookStep, Option.some.injEq] at h
    subst h
    simp at hq
  | selectDoc w | setDate w =>
    simp only [bookStep] at h
    split at h
    · simp only [Option.some.injEq] at h
      subst h
      simp only [availabilityEffect] at hq
      split at hq
      · simp only [List.mem_singleton] at hq
        subst hq
        simp [getAvailability, List.lookup] at hv
      · simp at hq
    · simp at h
  | clickSlot w | setReason w =>
    simp only [bookStep] at h
    split at h
    · simp only [Option.some.injEq] at h; subst h; simp at hq
    · simp at h
  | submit res =>
    simp only [bookStep, Option.some.injEq] at h
    subst h
    cases res <;> simp [submit] at hq <;> subst hq <;> simp [bookingRequest, List.lookup] at hv

/-- The `specialization` query of every request of a sequence of events on the
booking form is in `SPECIALIZATIONS`. -/
theorem bookRun_specialization (apiUrl : String) (events : List BookEvent) :
    ∀ (s : BookState) (reqs : List Request) (s' : BookState),
      bookRun apiUrl s events = some (reqs, s') →
      ∀ q ∈ reqs, ∀ v, q.query.lookup "specialization" = some v → v ∈ SPECIALIZATIONS := by
  induction events with
  | nil =>
    intro s reqs s' h
    simp only [bookRun, Option.some.injEq, Prod.mk.injEq] at h
    obtain ⟨h1, _⟩ := h
    subst h1
    simp
  | cons e es ih =>
    intro s reqs s' h
    simp only [bookRun] at h
    cases hstep : bookStep apiUrl s e with
    | none => simp [hstep] at h
    | some r =>
      simp only [hstep] at h
      cases hrest : bookRun apiUrl r.state es with
      | none => simp [hrest] at h
      | some p =>
        obtain ⟨reqs2, s2⟩ := p
        simp only [hrest, Option.some.injEq, Prod.mk.injEq] at h
        obtain ⟨h1, h2⟩ := h
        subst h1
        subst h2
        intro q hq v hv
        rcases List.mem_append.1 hq with hq | hq
        · exact bookStep_specialization apiUrl s e r hstep q hq v hv
        · exact ih r.state reqs2 s2 hrest q hq v hv

/-- C9: `SPECIALIZATIONS` has 13 pairwise distinct entries, as many as the list
of the spec; the specialization selects of the registration form and of the
booking form offer exactly its entries, in its order; every non-empty
specialization in the body of a request sent from the login page, and every
`specialization` query sent from the booking form, is one of its entries. -/
theorem specializations_single_source (apiUrl : String) :
    SPECIALIZATIONS.length = 13 ∧
    SPECIALIZATIONS.Nodup ∧
    SPECIALIZATIONS.length = specListedSpecializations.length ∧
    selectable registerSpecOptions = SPECIALIZATIONS ∧
    selectable bookSpecOptions = SPECIALIZATIONS ∧
    (∀ events reqs s', loginRun apiUrl LoginState.init events = some (reqs, s') →
      ∀ q ∈ reqs, ∀ o v, q.body = Body.json o →
        o.get "specialization" = some (JSVal.str v) → v ≠ "" → v ∈ SPECIALIZATIONS) ∧
    (∀ events reqs s', bookRun apiUrl BookState.init events = some (reqs, s') →
      ∀ q ∈ reqs, ∀ v, q.query.lookup "specialization" = some v → v ∈ SPECIALIZATIONS) := by
  refine ⟨rfl, by decide, rfl, selectable_registerSpecOptions, selectable_bookSpecOptions,
    ?_, ?_⟩
  · intro events reqs s' hrun q hq o v hb hv hne
    rcases loginRun_specialization apiUrl events LoginState.init reqs s' (Or.inl rfl) hrun
      q hq o v hb hv with h | h
    · exact absurd h hne
    · exact h
  · intro events reqs s' hrun
    exact bookRun_specialization apiUrl events BookState.init reqs s' hrun

/-! ### The server model -/

/-- Replacing one element of a list changes a count by the two elements. -/
theorem countP_set_getElem? {α : Type} (p : α → Bool) (l : List α) (i : Nat) (x a : α)
    (h : l[i]? = some x) :
    (l.set i a).countP p + (p x).toNat = l.countP p + (p a).toNat := by
  induction l generalizing i with
  | nil => simp at h
  | cons y l ih =>
    cases i with
    | zero =>
      simp only [List.getElem?_cons_zero, Option.some.injEq] at h
      subst h
      simp only [List.set_cons_zero, List.countP_cons]
      cases p y <;> cases p a <;> simp
    | succ i =>
      simp only [List.getElem?_cons_succ] at h
      have := ih i h
      simp only [List.set_cons_succ, List.countP_cons]
      omega

/-- Replacing one element of a list changes a sum by the two elements. -/
theorem sum_map_set_getElem? {α : Type} (f : α → Nat) (l : List α) (i : Nat) (x a : α)
    (h : l[i]? = some x) :
    ((l.set i a).map f).sum + f x = (l.map f).sum + f a := by
  induction l generalizing i with
  | nil => simp at h
  | cons y l ih =>
    cases i with
    | zero =>
      simp only [List.getElem?_cons_zero, Option.some.injEq] at h
      subst h
      simp only [List.set_cons_zero, List.map_cons, List.sum_cons]
      omega
    | succ i =>
      simp only [List.getElem?_cons_succ] at h
      have := ih i h
      simp only [List.set_cons_succ, List.map_cons, List.sum_cons]
      omega

/-- The count of a phase predicate after request `i` moves from `ph` to `ph2`. -/
theorem Server.count_set (store store2 : List StoredAppointment)
    (procs : List (BookingCall × Phase)) (i : Nat) (c : BookingCall) (ph ph2 : Phase)
    (h : procs[i]? = some (c, ph)) (q : Phase → Bool) :
    Server.count { store := store2, procs := procs.set i (c, ph2) } q + (q ph).toNat
      = Server.count { store := store, procs := procs } q + (q ph2).toNat := by
  simp only [Server.count]
  exact countP_set_getElem? (fun p => q p.2) procs i (c, ph) (c, ph2) h

/-- The calls of the requests do not change when request `i` moves. -/
theorem mem_set_call (procs : List (BookingCall × Phase)) (i : Nat) (c : BookingCall)
    (ph ph2 : Phase) (h : procs[i]? = some (c, ph)) (P : BookingCall → Prop)
    (hP : ∀ p ∈ procs, P p.1) : ∀ p ∈ procs.set i (c, ph2), P p.1 := by
  intro p hp
  rcases List.mem_or_eq_of_mem_set hp with hp | hp
  · exact hP p hp
  · subst hp
    exact hP (c, ph) (List.getElem?_mem h)

/-- Relations between the counts of the phase predicates, for any requests. -/
theorem Server.count_relations (s : Server) :
    s.count Phase.sawFree ≤ s.count Phase.inside ∧
    s.count Phase.committed + s.count Phase.inside
      ≤ s.count Phase.succeeded + 2 * s.count Phase.inside ∧
    s.count Phase.succeeded ≤ s.count Phase.committed ∧
    s.count Phase.conflicted ≤ s.count Phase.sawTaken ∧
    s.count Phase.isReturned + s.count Phase.inside ≤ s.procs.length ∧
    s.count Phase.isReturned
      = s.count Phase.succeeded + s.count Phase.conflicted + s.count Phase.invalid ∧
    s.progress ≤ 4 * s.procs.length := by
  obtain ⟨store, procs⟩ := s
  simp only [Server.count, Server.progress]
  induction procs with
  | nil => simp
  | cons p ps ih =>
    obtain ⟨c, ph⟩ := p
    simp only [List.countP_cons, List.length_cons, List.map_cons, List.sum_cons]
    generalize List.countP (fun p : BookingCall × Phase => p.2.sawFree) ps = n1 at ih ⊢
    generalize List.countP (fun p : BookingCall × Phase => p.2.inside) ps = n2 at ih ⊢
    generalize List.countP (fun p : BookingCall × Phase => p.2.committed) ps = n3 at ih ⊢
    generalize List.countP (fun p : BookingCall × Phase => p.2.succeeded) ps = n4 at ih ⊢
    generalize List.countP (fun p : BookingCall × Phase => p.2.conflicted) ps = n5 at ih ⊢
    generalize List.countP (fun p : BookingCall × Phase => p.2.sawTaken) ps = n6 at ih ⊢
    generalize List.countP (fun p : BookingCall × Phase => p.2.isReturned) ps = n7 at ih ⊢
    generalize List.countP (fun p : BookingCall × Phase => p.2.invalid) ps = n8 at ih ⊢
    generalize (List.map (fun p : BookingCall × Phase => p.2.rank) ps).sum = n9 at ih ⊢
    generalize ps.length = n10 at ih ⊢
    cases ph with
    | waiting => simp [Phase.sawFree, Phase.inside, Phase.committed, Phase.succeeded,
        Phase.conflicted, Phase.sawTaken, Phase.isReturned, Phase.invalid, Phase.rank]; omega
    | entered => simp [Phase.sawFree, Phase.inside, Phase.committed, Phase.succeeded,
        Phase.conflicted, Phase.sawTaken, Phase.isReturned, Phase.invalid, Phase.rank]; omega
    | checked free =>
      cases free <;> simp [Phase.sawFree, Phase.inside, Phase.committed, Phase.succeeded,
        Phase.conflicted, Phase.sawTaken, Phase.isReturned, Phase.invalid, Phase.rank] <;> omega
    | written a => simp [Phase.sawFree, Phase.inside, Phase.committed, Phase.succeeded,
        Phase.conflicted, Phase.sawTaken, Phase.isReturned, Phase.invalid, Phase.rank]; omega
    | returned r =>
      cases r <;> simp [Phase.sawFree, Phase.inside, Phase.committed, Phase.succeeded,
        Phase.conflicted, Phase.sawTaken, Phase.isReturned, Phase.invalid, Phase.rank] <;> omega

/-- The progress after request `i` moves from `ph` to `ph2`. -/
theorem Server.progress_set (store store2 : List StoredAppointment)
    (procs : List (BookingCall × Phase)) (i : Nat) (c : BookingCall) (ph ph2 : Phase)
    (h : procs[i]? = some (c, ph)) :
    Server.progress { store := store2, procs := procs.set i (c, ph2) } + ph.rank
      = Server.progress { store := store, procs := procs } + ph2.rank := by
  simp only [Server.progress]
  exact sum_map_set_getElem? (fun p => p.2.rank) procs i (c, ph) (c, ph2) h

/-- When the critical section of the key of all requests is not busy, no
request is inside. -/
theorem count_inside_of_not_busy (store : List StoredAppointment)
    (procs : List (BookingCall × Phase)) (k : SlotKey)
    (hk : ∀ p ∈ procs, p.1.key = k) (hb : busy procs k = false) :
    Server.count { store := store, procs := procs } Phase.inside = 0 := by
  simp only [Server.count, List.countP_eq_zero]
  intro p hp hin
  have : busy procs k = true := by
    simp only [busy, List.any_eq_true, Bool.and_eq_true, decide_eq_true_eq]
    exact ⟨p, hp, hk p hp, hin⟩
  rw [hb] at this
  exact absurd this (by simp)

/-- The write adds one active appointment to the key of the call. -/
theorem activeCount_append_new (store : List StoredAppointment) (c : BookingCall) :
    activeCount (store ++ [newAppointment store c]) c.key = activeCount store c.key + 1 := by
  simp [activeCount, StoredAppointment.holds, newAppointment, BookingCall.key, Status.active]

/-- One step of a request keeps the invariant and adds to the progress. -/
theorem Server.step_inv (template : String → String → List String) (patients : List String)
    (k : SlotKey) (n : Nat) (s s' : Server) (i : Nat)
    (hinv : Server.Inv template patients k n s)
    (h : Server.step template patients s i = some s') :
    Server.Inv template patients k n s' ∧ s.progress < s'.progress := by
  obtain ⟨store, procs⟩ := s
  obtain ⟨hlen, hcalls, h2, h3, h5, h6, h7, h4⟩ := hinv
  simp only at hlen hcalls h3 h5 h6 h4
  have rel := Server.count_relations { store := store, procs := procs }
  simp only [Server.step] at h
  cases hget : procs[i]? with
  | none => simp [hget] at h
  | some p =>
    obtain ⟨c, ph⟩ := p
    have hc := hcalls (c, ph) (List.getElem?_mem hget)
    simp only at hc
    obtain ⟨hkey, hvalid⟩ := hc
    have hk' : ∀ ph2, ∀ p ∈ procs.set i (c, ph2),
        p.1.key = k ∧ validCall template patients p.1 = true := fun ph2 =>
      mem_set_call procs i c ph ph2 hget
        (fun c => c.key = k ∧ validCall template patients c = true) hcalls
    cases ph with
    | waiting =>
      simp only [hget, hvalid, Bool.not_true, Bool.false_eq_true, if_false] at h
      split at h
      · simp at h
      · rename_i hb
        simp only [Bool.not_eq_true] at hb
        simp only [Option.some.injEq] at h
        subst h
        have z := count_inside_of_not_busy store procs k (fun p hp => (hcalls p hp).1)
          (by rw [← hkey]; exact hb)
        have e1 : Server.count { store := store, procs := procs.set i (c, .entered) }
            Phase.inside + 0
              = Server.count { store := store, procs := procs } Phase.inside + 1 :=
          Server.count_set store (store) procs i c (.waiting) (.entered) hget Phase.inside
        have e2 : Server.count { store := store, procs := procs.set i (c, .entered) }
            Phase.committed + 0
              = Server.count { store := store, procs := procs } Phase.committed + 0 :=
          Server.count_set store (store) procs i c (.waiting) (.entered) hget Phase.committed
        have e3 : Server.count { store := store, procs := procs.set i (c, .entered) }
            Phase.sawFree + 0
              = Server.count { store := store, procs := procs } Phase.sawFree + 0 :=
          Server.count_set store (store) procs i c (.waiting) (.entered) hget Phase.sawFree
        have e4 : Server.count { store := store, procs := procs.set i (c, .entered) }
            Phase.sawTaken + 0
              = Server.count { store := store, procs := procs } Phase.sawTaken + 0 :=
          Server.count_set store (store) procs i c (.waiting) (.entered) hget Phase.sawTaken
        have e5 : Server.count { store := store, procs := procs.set i (c, .entered) }
            Phase.invalid + 0
              = Server.count { store := store, procs := procs } Phase.invalid + 0 :=
          Server.count_set store (store) procs i c (.waiting) (.entered) hget Phase.invalid
        have e6 : Server.progress { store := store, procs := procs.set i (c, .entered) }
            + 0
              = Server.progress { store := store, procs := procs } + 1 :=
          Server.progress_set store (store) procs i c (.waiting) (.entered) hget
        refine ⟨⟨by simpa using hlen, hk' _, ?_, ?_, ?_, ?_, ?_, h4⟩, ?_⟩ <;>
          (try simp only) <;> omega
    | entered =>
      simp only [hget, Option.some.injEq] at h
      subst h
      cases hfree : (activeCount store c.key == 0) with
      | true =>
        have hz : activeCount store k = 0 := by
          rw [← hkey]; simpa using hfree
        have e1 : Server.count { store := store, procs := procs.set i (c, .checked true) }
            Phase.inside + 1
              = Server.count { store := store, procs := procs } Phase.inside + 1 :=
          Server.count_set store (store) procs i c (.entered) (.checked true) hget Phase.inside
        have e2 : Server.count { store := store, procs := procs.set i (c, .checked true) }
            Phase.committed + 0
              = Server.count { store := store, procs := procs } Phase.committed + 0 :=
          Server.count_set store (store) procs i c (.entered) (.checked true) hget Phase.committed
        have e3 : Server.count { store := store, procs := procs.set i (c, .checked true) }
            Phase.sawFree + 0
              = Server.count { store := store, procs := procs } Phase.sawFree + 1 :=
          Server.count_set store (store) procs i c (.entered) (.checked true) hget Phase.sawFree
        have e4 : Server.count { store := store, procs := procs.set i (c, .checked true) }
            Phase.sawTaken + 0
              = Server.count { store := store, procs := procs } Phase.sawTaken + 0 :=
          Server.count_set store (store) procs i c (.entered) (.checked true) hget Phase.sawTaken
        have e5 : Server.count { store := store, procs := procs.set i (c, .checked true) }
            Phase.invalid + 0
              = Server.count { store := store, procs := procs } Phase.invalid + 0 :=
          Server.count_set store (store) procs i c (.entered) (.checked true) hget Phase.invalid
        have e6 : Server.progress { store := store, procs := procs.set i (c, .checked true) }
            + 1
              = Server.progress { store := store, procs := procs } + 2 :=
          Server.progress_set store (store) procs i c (.entered) (.checked true) hget
        refine ⟨⟨by simpa using hlen, hk' _, ?_, ?_, ?_, ?_, ?_, h4⟩, ?_⟩ <;>
          (try simp only) <;> omega
      | false =>
        have hz : activeCount store k ≠ 0 := by
          rw [← hkey]; simpa using hfree
        have e1 : Server.count { store := store, procs := procs.set i (c, .checked false) }
            Phase.inside + 1
              = Server.count { store := store, procs := procs } Phase.inside + 1 :=
          Server.count_set store (store) procs i c (.entered) (.checked false) hget Phase.inside
        have e2 : Server.count { store := store, procs := procs.set i (c, .checked false) }
            Phase.committed + 0
              = Server.count { store := store, procs := procs } Phase.committed + 0 :=
          Server.count_set store (store) procs i c (.entered) (.checked false) hget Phase.committed
        have e3 : Server.count { store := store, procs := procs.set i (c, .checked false) }
            Phase.sawFree + 0
              = Server.count { store := store, procs := procs } Phase.sawFree + 0 :=
          Server.count_set store (store) procs i c (.entered) (.checked false) hget Phase.sawFree
        have e4 : Server.count { store := store, procs := procs.set i (c, .checked false) }
            Phase.sawTaken + 0
              = Server.count { store := store, procs := procs } Phase.sawTaken + 1 :=
          Server.count_set store (store) procs i c (.entered) (.checked false) hget Phase.sawTaken
        have e5 : Server.count { store := store, procs := procs.set i (c, .checked false) }
            Phase.invalid + 0
              = Server.count { store := store, procs := procs } Phase.invalid + 0 :=
          Server.count_set store (store) procs i c (.entered) (.checked false) hget Phase.invalid
        have e6 : Server.progress { store := store, procs := procs.set i (c, .checked false) }
            + 1
              = Server.progress { store := store, procs := procs } + 2 :=
          Server.progress_set store (store) procs i c (.entered) (.checked false) hget
        refine ⟨⟨by simpa using hlen, hk' _, ?_, ?_, ?_, ?_, ?_, h4⟩, ?_⟩ <;>
          (try simp only) <;> omega
    | checked free =>
      cases free with
      | true =>
        simp only [hget, Option.some.injEq] at h
        subst h
        have hw : activeCount (store ++ [newAppointment store c]) k = activeCount store k + 1 := by
          rw [← hkey]; exact activeCount_append_new store c
        have e1 : Server.count { store := store ++ [newAppointment store c], procs := procs.set i (c, .written (newAppointment store c)) }
            Phase.inside + 1
              = Server.count { store := store, procs := procs } Phase.inside + 1 :=
          Server.count_set store (store ++ [newAppointment store c]) procs i c (.checked true) (.written (newAppointment store c)) hget Phase.inside
        have e2 : Server.count { store := store ++ [newAppointment store c], procs := procs.set i (c, .written (newAppointment store c)) }
            Phase.committed + 0
              = Server.count { store := store, procs := procs } Phase.committed + 1 :=
          Server.count_set store (store ++ [newAppointment store c]) procs i c (.checked true) (.written (newAppointment store c)) hget Phase.committed
        have e3 : Server.count { store := store ++ [newAppointment store c], procs := procs.set i (c, .written (newAppointment store c)) }
            Phase.sawFree + 1
              = Server.count { store := store, procs := procs } Phase.sawFree + 0 :=
          Server.count_set store (store ++ [newAppointment store c]) procs i c (.checked true) (.written (newAppointment store c)) hget Phase.sawFree
        have e4 : Server.count { store := store ++ [newAppointment store c], procs := procs.set i (c, .written (newAppointment store c)) }
            Phase.sawTaken + 0
              = Server.count { store := store, procs := procs } Phase.sawTaken + 0 :=
          Server.count_set store (store ++ [newAppointment store c]) procs i c (.checked true) (.written (newAppointment store c)) hget Phase.sawTaken
        have e5 : Server.count { store := store ++ [newAppointment store c], procs := procs.set i (c, .written (newAppointment store c)) }
            Phase.invalid + 0
              = Server.count { store := store, procs := procs } Phase.invalid + 0 :=
          Server.count_set store (store ++ [newAppointment store c]) procs i c (.checked true) (.written (newAppointment store c)) hget Phase.invalid
        have e6 : Server.progress { store := store ++ [newAppointment store c], procs := procs.set i (c, .written (newAppointment store c)) }
            + 2
              = Server.progress { store := store, procs := procs } + 3 :=
          Server.progress_set store (store ++ [newAppointment store c]) procs i c (.checked true) (.written (newAppointment store c)) hget
        refine ⟨⟨by simpa using hlen, hk' _, ?_, ?_, ?_, ?_, ?_, ?_⟩, ?_⟩ <;>
          (try simp only) <;> omega
      | false =>
        simp only [hget, Option.some.injEq] at h
        subst h
        have e1 : Server.count { store := store, procs := procs.set i (c, .returned .conflictError) }
            Phase.inside + 1
              = Server.count { store := store, procs := procs } Phase.inside + 0 :=
          Server.count_set store (store) procs i c (.checked false) (.returned .conflictError) hget Phase.inside
        have e2 : Server.count { store := store, procs := procs.set i (c, .returned .conflictError) }
            Phase.committed + 0
              = Server.count { store := store, procs := procs } Phase.committed + 0 :=
          Server.count_set store (store) procs i c (.checked false) (.returned .conflictError) hget Phase.committed
        have e3 : Server.count { store := store, procs := procs.set i (c, .returned .conflictError) }
            Phase.sawFree + 0
              = Server.count { store := store, procs := procs } Phase.sawFree + 0 :=
          Server.count_set store (store) procs i c (.checked false) (.returned .conflictError) hget Phase.sawFree
        have e4 : Server.count { store := store, procs := procs.set i (c, .returned .conflictError) }
            Phase.sawTaken + 1
              = Server.count { store := store, procs := procs } Phase.sawTaken + 1 :=
          Server.count_set store (store) procs i c (.checked false) (.returned .conflictError) hget Phase.sawTaken
        have e5 : Server.count { store := store, procs := procs.set i (c, .returned .conflictError) }
            Phase.invalid + 0
              = Server.count { store := store, procs := procs } Phase.invalid + 0 :=
          Server.count_set store (store) procs i c (.checked false) (.returned .conflictError) hget Phase.invalid
        have e6 : Server.progress { store := store, procs := procs.set i (c, .returned .conflictError) }
            + 2
              = Server.progress { store := store, procs := procs } + 4 :=
          Server.progress_set store (store) procs i c (.checked false) (.returned .conflictError) hget
        refine ⟨⟨by simpa using hlen, hk' _, ?_, ?_, ?_, ?_, ?_, h4⟩, ?_⟩ <;>
          (try simp only) <;> omega
    | written a =>
      simp only [hget, Option.some.injEq] at h
      subst h
      have e1 : Server.count { store := store, procs := procs.set i (c, .returned (.created a)) }
          Phase.inside + 1
            = Server.count { store := store, procs := procs } Phase.inside + 0 :=
        Server.count_set store (store) procs i c (.written a) (.returned (.created a)) hget Phase.inside
      have e2 : Server.count { store := store, procs := procs.set i (c, .returned (.created a)) }
          Phase.committed + 1
            = Server.count { store := store, procs := procs } Phase.committed + 1 :=
        Server.count_set store (store) procs i c (.written a) (.returned (.created a)) hget Phase.committed
      have e3 : Server.count { store := store, procs := procs.set i (c, .returned (.created a)) }
          Phase.sawFree + 0
            = Server.count { store := store, procs := procs } Phase.sawFree + 0 :=
        Server.count_set store (store) procs i c (.written a) (.returned (.created a)) hget Phase.sawFree
      have e4 : Server.count { store := store, procs := procs.set i (c, .returned (.created a)) }
          Phase.sawTaken + 0
            = Server.count { store := store, procs := procs } Phase.sawTaken + 0 :=
        Server.count_set store (store) procs i c (.written a) (.returned (.created a)) hget Phase.sawTaken
      have e5 : Server.count { store := store, procs := procs.set i (c, .returned (.created a)) }
          Phase.invalid + 0
            = Server.count { store := store, procs := procs } Phase.invalid + 0 :=
        Server.count_set store (store) procs i c (.written a) (.returned (.created a)) hget Phase.invalid
      have e6 : Server.progress { store := store, procs := procs.set i (c, .returned (.created a)) }
          + 3
            = Server.progress { store := store, procs := procs } + 4 :=
        Server.progress_set store (store) procs i c (.written a) (.returned (.created a)) hget
      refine ⟨⟨by simpa using hlen, hk' _, ?_, ?_, ?_, ?_, ?_, h4⟩, ?_⟩ <;>
        (try simp only) <;> omega
    | returned r => simp [hget] at h

/-- An execution keeps the invariant and has at most as many steps as the
progress it adds. -/
theorem Server.run_inv (template : String → String → List String) (patients : List String)
    (k : SlotKey) (n : Nat) (sched : List Nat) :
    ∀ (s s' : Server), Server.Inv template patients k n s →
      Server.run template patients s sched = some s' →
      Server.Inv template patients k n s' ∧ s.progress + sched.length ≤ s'.progress := by
  induction sched with
  | nil =>
    intro s s' hinv h
    simp only [Server.run, Option.some.injEq] at h
    subst h
    exact ⟨hinv, by simp⟩
  | cons i rest ih =>
    intro s s' hinv h
    simp only [Server.run] at h
    cases hstep : Server.step template patients s i with
    | none => simp [hstep] at h
    | some s1 =>
      simp only [hstep] at h
      obtain ⟨hinv1, hlt⟩ := Server.step_inv template patients k n s s1 i hinv hstep
      obtain ⟨hinv2, hle⟩ := ih s1 s' hinv1 h
      refine ⟨hinv2, ?_⟩
      simp only [List.length_cons]
      omega

/-- The invariant holds when the calls have arrived and none has started. -/
theorem Server.start_inv (template : String → String → List String) (patients : List String)
    (k : SlotKey) (store : List StoredAppointment) (calls : List BookingCall)
    (hkey : ∀ c ∈ calls, c.key = k)
    (hvalid : ∀ c ∈ calls, validCall template patients c = true)
    (hfree : activeCount store k = 0) :
    Server.Inv template patients k calls.length (Server.start store calls) := by
  have hz : ∀ q : Phase → Bool, q Phase.waiting = false →
      (Server.start store calls).count q = 0 := by
    intro q hq
    simp only [Server.count, Server.start, List.countP_eq_zero, List.mem_map]
    rintro p ⟨c, _, rfl⟩
    simp [hq]
  refine ⟨by simp [Server.start], ?_, ?_, ?_, ?_, ?_, ?_, ?_⟩
  · intro p hp
    simp only [Server.start, List.mem_map] at hp
    obtain ⟨c, hc, rfl⟩ := hp
    exact ⟨hkey c hc, hvalid c hc⟩
  · rw [hz Phase.inside rfl]; omega
  · rw [hz Phase.committed rfl]; exact hfree
  · intro _; exact hfree
  · rw [hz Phase.sawTaken rfl]; omega
  · exact hz Phase.invalid rfl
  · show activeCount store k ≤ 1
    omega

/-- Under the invariant, while some request has not returned, some request can
move. -/
theorem Server.step_enabled (template : String → String → List String)
    (patients : List String) (k : SlotKey) (n : Nat) (s : Server)
    (hinv : Server.Inv template patients k n s) (hnot : s.allReturned = false) :
    ∃ i, (Server.step template patients s i).isSome = true := by
  obtain ⟨store, procs⟩ := s
  obtain ⟨_, hcalls, _, _, _, _, _, _⟩ := hinv
  simp only at hcalls
  by_cases hin : ∃ p ∈ procs, p.2.inside = true
  · obtain ⟨p, hp, hpin⟩ := hin
    obtain ⟨i, hi⟩ := List.mem_iff_getElem?.1 hp
    obtain ⟨c, ph⟩ := p
    refine ⟨i, ?_⟩
    simp only [Server.step, hi]
    cases ph with
    | waiting => simp [Phase.inside] at hpin
    | entered => simp
    | checked free => cases free <;> simp
    | written a => simp
    | returned r => simp [Phase.inside] at hpin
  · have hex : ∃ p ∈ procs, p.2.isReturned = false := by
      by_contra hcon
      have : Server.allReturned { store := store, procs := procs } = true := by
        simp only [Server.allReturned, List.all_eq_true]
        intro p hp
        by_contra hp2
        exact hcon ⟨p, hp, by simpa using hp2⟩
      rw [this] at hnot
      exact absurd hnot (by simp)
    obtain ⟨p, hp, hpr⟩ := hex
    obtain ⟨i, hi⟩ := List.mem_iff_getElem?.1 hp
    obtain ⟨c, ph⟩ := p
    have hv := (hcalls (c, ph) hp).2
    simp only at hv
    have hb : busy procs c.key = false := by
      cases hbb : busy procs c.key with
      | false => rfl
      | true =>
        simp only [busy, List.any_eq_true, Bool.and_eq_true, decide_eq_true_eq] at hbb
        obtain ⟨q, hq, _, hqin⟩ := hbb
        exact absurd ⟨q, hq, hqin⟩ hin
    refine ⟨i, ?_⟩
    simp only [Server.step, hi]
    cases ph with
    | waiting => simp [hv, hb]
    | entered => simp
    | checked free => cases free <;> simp
    | written a => simp
    | returned r => simp [Phase.isReturned] at hpr

/-- Under the invariant some schedule brings every request to its return. -/
theorem Server.exists_complete (template : String → String → List String)
    (patients : List String) (k : SlotKey) (n : Nat) (m : Nat) :
    ∀ s : Server, Server.Inv template patients k n s → 4 * n - s.progress ≤ m →
      ∃ sched final, Server.run template patients s sched = some final ∧
        final.allReturned = true := by
  induction m with
  | zero =>
    intro s hinv hm
    cases hall : s.allReturned with
    | true => exact ⟨[], s, rfl, hall⟩
    | false =>
      obtain ⟨i, hi⟩ := Server.step_enabled template patients k n s hinv hall
      obtain ⟨s1, hs1⟩ := Option.isSome_iff_exists.1 hi
      obtain ⟨hinv1, hlt⟩ := Server.step_inv template patients k n s s1 i hinv hs1
      have hb := (Server.count_relations s1).2.2.2.2.2.2
      have hl := hinv1.1
      rw [hl] at hb
      omega
  | succ m ih =>
    intro s hinv hm
    cases hall : s.allReturned with
    | true => exact ⟨[], s, rfl, hall⟩
    | false =>
      obtain ⟨i, hi⟩ := Server.step_enabled template patients k n s hinv hall
      obtain ⟨s1, hs1⟩ := Option.isSome_iff_exists.1 hi
      obtain ⟨hinv1, hlt⟩ := Server.step_inv template patients k n s s1 i hinv hs1
      obtain ⟨sched, final, hrun, hfin⟩ := ih s1 hinv1 (by omega)
      exact ⟨i :: sched, final, by simp [Server.run, hs1, hrun], hfin⟩

/-- Under the invariant, once every request has returned, one call has
succeeded, the others have failed with a conflict, and the key has one active
appointment. -/
theorem Server.final_counts (template : String → String → List String)
    (patients : List String) (k : SlotKey) (n : Nat) (s : Server) (hn : 1 ≤ n)
    (hinv : Server.Inv template patients k n s) (hall : s.allReturned = true) :
    s.successes = 1 ∧ s.conflicts = n - 1 ∧ activeCount s.store k = 1 := by
  obtain ⟨hlen, _, h2, h3, h5, h6, h7, h4⟩ := hinv
  obtain ⟨r1, r2, r3, r4, r5, r6, _⟩ := Server.count_relations s
  have hret : s.count Phase.isReturned = s.procs.length := by
    simp only [Server.count, List.countP_eq_length]
    simp only [Server.allReturned, List.all_eq_true] at hall
    exact hall
  simp only [Server.successes, Server.conflicts]
  omega

/-- C6: take N >= 1 calls of `book` that are valid and ask for one slot key that
no active appointment holds, running concurrently on the server model. Some
schedule completes them. In every execution the key never has more than one
active appointment, the execution has at most 4N steps, and unless every call
has returned some call can still move; once every call has returned, exactly
one call has returned a created appointment, the other N-1 have returned
`ConflictError`, and the store holds exactly one active appointment for the
key. -/
theorem book_concurrent_exactly_one (template : String → String → List String)
    (patients : List String) (store : List StoredAppointment) (calls : List BookingCall)
    (k : SlotKey) (hN : calls ≠ [])
    (hkey : ∀ c ∈ calls, c.key = k)
    (hvalid : ∀ c ∈ calls, validCall template patients c = true)
    (hfree : activeCount store k = 0) :
    (∃ sched final,
      Server.run template patients (Server.start store calls) sched = some final ∧
        final.allReturned = true) ∧
    (∀ sched final,
      Server.run template patients (Server.start store calls) sched = some final →
        activeCount final.store k ≤ 1 ∧
        sched.length ≤ 4 * calls.length ∧
        (final.allReturned = false →
          ∃ i, (Server.step template patients final i).isSome = true) ∧
        (final.allReturned = true →
          final.successes = 1 ∧ final.conflicts = calls.length - 1 ∧
            activeCount final.store k = 1)) := by
  have hstart := Server.start_inv template patients k store calls hkey hvalid hfree
  have hn : 1 ≤ calls.length := by
    cases calls with
    | nil => exact absurd rfl hN
    | cons c cs => simp
  refine ⟨Server.exists_complete template patients k calls.length _ _ hstart (le_refl _), ?_⟩
  intro sched final hrun
  obtain ⟨hinv, hle⟩ := Server.run_inv template patients k calls.length sched _ final hstart hrun
  have hb := (Server.count_relations final).2.2.2.2.2.2
  rw [hinv.1] at hb
  refine ⟨hinv.2.2.2.2.2.2.2, by omega, ?_, ?_⟩
  · exact Server.step_enabled template patients k calls.length final hinv
  · exact Server.final_counts template patients k calls.length final hn hinv

/-! ### Concrete runs -/

/-- A run on the sample dashboard: clicking the reject button of the pending row
sends the PATCH with `status` parameter `rejected`. -/
theorem doctor_status_actions_iff_pending_witness :
    doctorRun "" "2024-05-01" id sampleDoctorState [.click 0 1 true none]
      = some ([patchStatus "" "A1" "rejected", getMyAppointments ""], sampleDoctorState) ∧
    ∃ id0 st, (st = "confirmed" ∨ st = "rejected") ∧
      patchStatus "" "A1" "rejected" = patchStatus "" id0 st ∧
      (patchStatus "" "A1" "rejected").query = [("status", st)] :=
  ⟨by decide,
   (doctor_status_actions_iff_pending "" "2024-05-01" id sampleDoctorState).2.2.2
     [.click 0 1 true none] [patchStatus "" "A1" "rejected", getMyAppointments ""]
     sampleDoctorState (by decide) (patchStatus "" "A1" "rejected") (by decide) (by decide)⟩

/-- A run on the sample appointments: from the initial dashboard, loading the
list, clicking the upload button of the confirmed row and submitting the form
sends the upload for that appointment, on which the modal had been opened. -/
theorem upload_offered_iff_confirmed_witness :
    doctorRun "" "2024-05-01" id DoctorState.init
        [.fetchData (some sampleAppointments), .click 1 0 false none, .upload sampleUpload true]
      = some ([getMyAppointments "",
               { method := .POST, url := "/api/reports/upload",
                 query := [("appointment_id", "A2"), ("exam_type", "Visita Specialistica"),
                           ("exam_date", "2024-05-01"), ("notes", "nella norma")],
                 body := .multipart (some "referto.pdf") }], sampleDoctorState) ∧
    ∃ app form,
      openedOn "" "2024-05-01" id DoctorState.init
        [.fetchData (some sampleAppointments), .click 1 0 false none, .upload sampleUpload true]
        app ∧
      ({ method := .POST, url := "/api/reports/upload",
         query := [("appointment_id", "A2"), ("exam_type", "Visita Specialistica"),
                   ("exam_date", "2024-05-01"), ("notes", "nella norma")],
         body := .multipart (some "referto.pdf") } : Request)
        = uploadRequest "" "2024-05-01" app form ∧
      List.lookup "appointment_id"
          [("appointment_id", "A2"), ("exam_type", "Visita Specialistica"),
           ("exam_date", "2024-05-01"), ("notes", "nella norma")]
        = some app.appointment_id :=
  ⟨by decide,
   ((upload_offered_iff_confirmed "" "2024-05-01" id).2.2.2.2
     [.fetchData (some sampleAppointments), .click 1 0 false none, .upload sampleUpload true]
     [getMyAppointments "",
      { method := .POST, url := "/api/reports/upload",
        query := [("appointment_id", "A2"), ("exam_type", "Visita Specialistica"),
                  ("exam_date", "2024-05-01"), ("notes", "nella norma")],
        body := .multipart (some "referto.pdf") }]
     sampleDoctorState (by decide)).1
     { method := .POST, url := "/api/reports/upload",
       query := [("appointment_id", "A2"), ("exam_type", "Visita Specialistica"),
                 ("exam_date", "2024-05-01"), ("notes", "nella norma")],
       body := .multipart (some "referto.pdf") } (by decide) (by decide)⟩

/-- An execution of the sample calls: three valid calls for a free slot, under the sample
schedule: all return, one has created the appointment, two have failed with a
conflict, and the slot has one active appointment. -/
theorem book_concurrent_exactly_one_witness :
    sampleCalls ≠ [] ∧
    (∀ c ∈ sampleCalls, c.key = sampleKey) ∧
    (∀ c ∈ sampleCalls, validCall sampleTemplate samplePatients c = true) ∧
    activeCount sampleStore sampleKey = 0 ∧
    Server.run sampleTemplate samplePatients (Server.start sampleStore sampleCalls)
      sampleSchedule = some sampleFinal ∧
    sampleFinal.allReturned = true ∧
    sampleFinal.successes = 1 ∧ sampleFinal.conflicts = sampleCalls.length - 1 ∧
    activeCount sampleFinal.store sampleKey = 1 :=
  ⟨by decide, by decide, by decide, by decide, by decide, by decide,
   ((book_concurrent_exactly_one sampleTemplate samplePatients sampleStore sampleCalls sampleKey
      (by decide) (by decide) (by decide) (by decide)).2 sampleSchedule sampleFinal
      (by decide)).2.2.2 (by decide)⟩

/-- A run of a registration: choosing the role doctor and a specialization and
submitting sends a body whose specialization is an entry of
`SPECIALIZATIONS`. -/
theorem specializations_single_source_witness :
    (loginRun "" LoginState.init
        [.toggle, .selectRole "doctor", .selectSpecialization "Neurologia",
         .submit (.ok (.null, .null))]).map (fun p => p.1)
      = some [{ method := .POST, url := "/api/auth/register", query := [],
                body := .json [("email", .str ""), ("password", .str ""),
                  ("role", .str "doctor"), ("name", .str ""), ("surname", .str ""),
                  ("phone", .str ""), ("specialization", .str "Neurologia")] }] ∧
    "Neurologia" ∈ SPECIALIZATIONS :=
  ⟨by decide,
   (specializations_single_source "").2.2.2.2.2.1
     [.toggle, .selectRole "doctor", .selectSpecialization "Neurologia",
      .submit (.ok (.null, .null))]
     [{ method := .POST, url := "/api/auth/register", query := [],
        body := .json [("email", .str ""), ("password", .str ""),
          ("role", .str "doctor"), ("name", .str ""), ("surname", .str ""),
          ("phone", .str ""), ("specialization", .str "Neurologia")] }]
     { isLogin := true,
       formData := { email := "", password := "", role := "doctor", name := "", surname := "",
                     phone := "", specialization := "Neurologia" },
       loading := false }
     (by decide) _ (List.mem_singleton.2 rfl) _ "Neurologia" rfl (by decide) (by decide)⟩


/-! ### The booking form: the selected slot -/

/-- One event of the booking form keeps the selected slot, unless it is the
click on a slot, which sets it to one of the slots shown before the event. -/
theorem bookStep_selectedSlot (apiUrl : String) (s : BookState) (e : BookEvent)
    (r : Outcome BookState) (h : bookStep apiUrl s e = some r) :
    r.state.selectedSlot = s.selectedSlot ∨
    (e = BookEvent.clickSlot r.state.selectedSlot ∧ r.state.selectedSlot ∈ s.slots ∧
      s.date ≠ "") := by
  cases e with
  | selectSpec v | selectDoc v | setDate v | setReason v =>
    simp only [bookStep] at h
    split at h
    · simp only [Option.some.injEq] at h; subst h; exact Or.inl rfl
    · simp at h
  | doctorsLoaded ds =>
    simp only [bookStep, Option.some.injEq] at h
    subst h
    exact Or.inl rfl
  | slotsLoaded sl =>
    simp only [bookStep, Option.some.injEq] at h
    subst h
    exact Or.inl rfl
  | clickSlot v =>
    simp only [bookStep] at h
    split at h
    · rename_i hc
      simp only [Option.some.injEq] at h
      subst h
      exact Or.inr ⟨rfl, hc.2, hc.1⟩
    · simp at h
  | submit res =>
    simp only [bookStep, Option.some.injEq] at h
    subst h
    cases res <;> exact Or.inl rfl

/-- In a run of the booking form the selected slot at the end is the one at
the start, or it was clicked at some point of the run among the slots then
shown. -/
theorem bookRun_selectedSlot (apiUrl : String) (events : List BookEvent) :
    ∀ (s : BookState) (reqs : List Request) (s' : BookState),
      bookRun apiUrl s events = some (reqs, s') →
      s'.selectedSlot = s.selectedSlot ∨
      ∃ n reqs0 s0, bookRun apiUrl s (events.take n) = some (reqs0, s0) ∧
        events[n]? = some (BookEvent.clickSlot s'.selectedSlot) ∧
        s'.selectedSlot ∈ s0.slots ∧ s0.date ≠ "" := by
  induction events with
  | nil =>
    intro s reqs s' h
    simp only [bookRun, Option.some.injEq, Prod.mk.injEq] at h
    exact Or.inl (by rw [h.2])
  | cons e es ih =>
    intro s reqs s' h
    simp only [bookRun] at h
    cases hstep : bookStep apiUrl s e with
    | none => simp [hstep] at h
    | some r =>
      simp only [hstep] at h
      cases hrest : bookRun apiUrl r.state es with
      | none => simp [hrest] at h
      | some p =>
        obtain ⟨reqs2, s2⟩ := p
        simp only [hrest, Option.some.injEq, Prod.mk.injEq] at h
        obtain ⟨_, h2⟩ := h
        subst h2
        rcases ih r.state reqs2 s2 hrest with hk | ⟨n, reqs0, s0, hrun0, hev, hmem, hd⟩
        · rcases bookStep_selectedSlot apiUrl s e r hstep with h1 | ⟨h1, h3, h4⟩
          · exact Or.inl (by rw [hk, h1])
          · refine Or.inr ⟨0, [], s, by simp [bookRun], ?_, ?_, h4⟩
            · rw [hk]; simp [h1]
            · rw [hk]; exact h3
        · refine Or.inr ⟨n + 1, r.requests ++ reqs0, s0, ?_, ?_, hmem, hd⟩
          · simp [bookRun, hstep, hrun0]
          · simpa using hev

/-- C11, as the code has it: a click on a slot selects one of the slots then
shown; no other event of the booking form changes the selected slot, so a
change of doctor or of date and the arrival of an availability result leave it
as it is; no event other than the arrival of an availability result changes
the slots shown, and every such event keeps the selected slot empty or among
the slots shown. The form sends `selectedSlot` as `time_slot` whatever the
slots are. So in every run from the initial form the submitted `time_slot` is
empty or was clicked at an earlier point of the run among the slots then
shown; and there is a run in which the form submits a slot that is not among
the slots shown at the submission. -/
theorem booking_slot_selected_from_shown (apiUrl : String) :
    (∀ s v r, bookStep apiUrl s (.clickSlot v) = some r →
      r.state.selectedSlot = v ∧ v ∈ s.slots ∧ r.state.slots = s.slots ∧
        slotInvariant r.state = true) ∧
    (∀ s e r, bookStep apiUrl s e = some r → (∀ v, e ≠ BookEvent.clickSlot v) →
      r.state.selectedSlot = s.selectedSlot) ∧
    (∀ s e r, bookStep apiUrl s e = some r → (∀ sl, e ≠ BookEvent.slotsLoaded sl) →
      r.state.slots = s.slots) ∧
    (∀ s sl, ∃ r, bookStep apiUrl s (.slotsLoaded sl) = some r ∧
      r.state.slots = sl ∧ r.state.selectedSlot = s.selectedSlot ∧
      r.state.selectedDoc = s.selectedDoc ∧ r.state.date = s.date) ∧
    (∀ s e r, bookStep apiUrl s e = some r → (∀ sl, e ≠ BookEvent.slotsLoaded sl) →
      slotInvariant s = true → slotInvariant r.state = true) ∧
    (∀ s res, bookStep apiUrl s (.submit res) = some (submit apiUrl s res) ∧
      (submit apiUrl s res).requests = [bookingRequest apiUrl s] ∧
      (bookingBody s).get "time_slot" = some (JSVal.str s.selectedSlot)) ∧
    (∀ events reqs s, bookRun apiUrl BookState.init events = some (reqs, s) →
      s.selectedSlot = "" ∨
      ∃ n reqs0 s0, bookRun apiUrl BookState.init (events.take n) = some (reqs0, s0) ∧
        events[n]? = some (BookEvent.clickSlot s.selectedSlot) ∧
        s.selectedSlot ∈ s0.slots ∧ s0.date ≠ "") ∧
    (∃ events reqs s, bookRun apiUrl BookState.init events = some (reqs, s) ∧
      bookingRequest apiUrl s ∈ reqs ∧ s.selectedSlot ≠ "" ∧ s.selectedSlot ∉ s.slots) := by
  refine ⟨?_, ?_, ?_, ?_, ?_, ?_, ?_, ?_⟩
  · intro s v r h
    simp only [bookStep] at h
    split at h
    · rename_i hc
      simp only [Option.some.injEq] at h
      subst h
      exact ⟨rfl, hc.2, rfl, by simp [slotInvariant, hc.2]⟩
    · simp at h
  · intro s e r h hne
    rcases bookStep_selectedSlot apiUrl s e r h with h1 | ⟨h1, _, _⟩
    · exact h1
    · exact absurd h1 (hne _)
  · intro s e r h hne
    cases e with
    | selectSpec v | selectDoc v | setDate v | setReason v | clickSlot v =>
      simp only [bookStep] at h
      split at h
      · simp only [Option.some.injEq] at h; subst h; rfl
      · simp at h
    | doctorsLoaded ds =>
      simp only [bookStep, Option.some.injEq] at h
      subst h
      rfl
    | slotsLoaded sl => exact absurd rfl (hne sl)
    | submit res =>
      simp only [bookStep, Option.some.injEq] at h
      subst h
      cases res <;> rfl
  · intro s sl
    exact ⟨_, rfl, rfl, rfl, rfl, rfl⟩
  · intro s e r h hne hinv
    cases e with
    | selectSpec v | selectDoc v | setDate v | setReason v =>
      simp only [bookStep] at h
      split at h
      · simp only [Option.some.injEq] at h; subst h; exact hinv
      · simp at h
    | doctorsLoaded ds =>
      simp only [bookStep, Option.some.injEq] at h
      subst h
      exact hinv
    | slotsLoaded sl => exact absurd rfl (hne sl)
    | clickSlot v =>
      simp only [bookStep] at h
      split at h
      · rename_i hc
        simp only [Option.some.injEq] at h
        subst h
        simp [slotInvariant, hc.2]
      · simp at h
    | submit res =>
      simp only [bookStep, Option.some.injEq] at h
      subst h
      cases res <;> exact hinv
  · intro s res
    refine ⟨rfl, ?_, ?_⟩
    · cases res <;> rfl
    · simp [bookingBody, JSObject.get, List.find?]
  · intro events reqs s hrun
    rcases bookRun_selectedSlot apiUrl events BookState.init reqs s hrun with h | h
    · exact Or.inl (by rw [h]; rfl)
    · exact Or.inr h
  · refine ⟨staleSlotEvents,
      [getDoctors apiUrl "Cardiologia", getAvailability apiUrl "D1" "2024-05-01",
       getAvailability apiUrl "D1" "2024-05-02", bookingRequest apiUrl staleSlotFinal],
      staleSlotFinal, ?_, by simp, by decide, by decide⟩
    simp [staleSlotEvents, staleSlotFinal, bookRun, bookStep, specEffect, availabilityEffect,
      submit, BookState.init, selectable, bookSpecOptions, SPECIALIZATIONS]

/-- The slot invariant fails on `staleSlotEvents`: the slot `09:00` is chosen
among the slots of the first date, the date is changed, the availability of the
new date arrives without that slot, and the form submits `09:00` for the new
date. The arrival of the second availability result is the event that breaks
the invariant. -/
theorem booking_slot_invariant_counterexample :
    bookRun "" BookState.init staleSlotEvents
      = some (staleSlotRequests, staleSlotFinal) ∧
    getAvailability "" "D1" "2024-05-02" ∈ staleSlotRequests ∧
    bookingRequest "" staleSlotFinal ∈ staleSlotRequests ∧
    (bookingBody staleSlotFinal).get "doctor_id" = some (JSVal.str "D1") ∧
    (bookingBody staleSlotFinal).get "date" = some (JSVal.str "2024-05-02") ∧
    (bookingBody staleSlotFinal).get "time_slot" = some (JSVal.str "09:00") ∧
    staleSlotFinal.slots = ["10:00"] ∧
    "09:00" ∉ staleSlotFinal.slots ∧
    slotInvariant { staleSlotFinal with slots := ["09:00", "09:30"] } = true ∧
    (bookStep "" { staleSlotFinal with slots := ["09:00", "09:30"] }
        (.slotsLoaded ["10:00"])).map (fun r => r.state) = some staleSlotFinal ∧
    slotInvariant staleSlotFinal = false := by
  refine ⟨by decide, by decide, by decide, by decide, by decide, by decide, rfl, by decide,
    by decide, by decide, by decide⟩

/-- On `staleSlotEvents` the slot submitted is not empty, and it was clicked at
an earlier point of the run among the slots then shown. -/
theorem booking_slot_selected_from_shown_witness :
    bookRun "" BookState.init staleSlotEvents
      = some (staleSlotRequests, staleSlotFinal) ∧
    (staleSlotFinal.selectedSlot = "" ∨
      ∃ n reqs0 s0, bookRun "" BookState.init (staleSlotEvents.take n) = some (reqs0, s0) ∧
        staleSlotEvents[n]? = some (BookEvent.clickSlot staleSlotFinal.selectedSlot) ∧
        staleSlotFinal.selectedSlot ∈ s0.slots ∧ s0.date ≠ "") :=
  ⟨by decide, (booking_slot_selected_from_shown "").2.2.2.2.2.2.1 staleSlotEvents
    staleSlotRequests staleSlotFinal (by decide)⟩


/-! ### getErrorMessage -/

/-- C12, as the code has it: `getErrorMessage` is a total function whose result
is always truthy, hence never the empty string. Without a response it returns
`Errore di rete o server non raggiungibile`. With a response it returns
`data.detail` when that is present and truthy, and `Errore imprevisto` when
`data` is missing, when `detail` is missing and when `detail` is falsy, the
empty string included. So it returns the network message exactly when the
error has no response or the response carries that very text as `detail`. -/
theorem getErrorMessage_cases (error : AxiosError) :
    (error.response = none →
      getErrorMessage error = .str "Errore di rete o server non raggiungibile") ∧
    (∀ r, error.response = some r →
      (∀ d v, r.data = some d → d.detail = some v → v.truthy = true →
        getErrorMessage error = v) ∧
      (r.data = none → getErrorMessage error = .str "Errore imprevisto") ∧
      (∀ d, r.data = some d → d.detail = none →
        getErrorMessage error = .str "Errore imprevisto") ∧
      (∀ d v, r.data = some d → d.detail = some v → v.truthy = false →
        getErrorMessage error = .str "Errore imprevisto") ∧
      (∀ d, r.data = some d → d.detail = some (.str "") →
        getErrorMessage error = .str "Errore imprevisto") ∧
      (getErrorMessage error = .str "Errore di rete o server non raggiungibile" →
        ∃ d, r.data = some d ∧
          d.detail = some (.str "Errore di rete o server non raggiungibile"))) ∧
    (getErrorMessage error = .str "Errore di rete o server non raggiungibile" ↔
      (error.response = none ∨
        ∃ r d, error.response = some r ∧ r.data = some d ∧
          d.detail = some (.str "Errore di rete o server non raggiungibile"))) ∧
    (getErrorMessage error).truthy = true ∧
    getErrorMessage error ≠ .str "" := by
  obtain ⟨response⟩ := error
  have key : (getErrorMessage { response := response }).truthy = true := by
    cases response with
    | none => simp [getErrorMessage, JSVal.truthy]
    | some r =>
      obtain ⟨st, data⟩ := r
      cases data with
      | none => simp [getErrorMessage, JSVal.truthy]
      | some d =>
        obtain ⟨detail⟩ := d
        cases detail with
        | none => simp [getErrorMessage, JSVal.truthy]
        | some v =>
          by_cases hv : v.truthy = true
          · simp [getErrorMessage, hv]
          · have hf : getErrorMessage ⟨some ⟨st, some ⟨some v⟩⟩⟩ = .str "Errore imprevisto" := by
              simp [getErrorMessage, hv]
            rw [hf]
            rfl
  have back : ∀ r : ErrResponse,
      getErrorMessage { response := some r }
        = .str "Errore di rete o server non raggiungibile" →
      ∃ d, r.data = some d ∧
        d.detail = some (.str "Errore di rete o server non raggiungibile") := by
    intro r h
    obtain ⟨st, data⟩ := r
    cases data with
    | none => simp [getErrorMessage] at h
    | some d =>
      obtain ⟨detail⟩ := d
      cases detail with
      | none => simp [getErrorMessage] at h
      | some v =>
        by_cases hv : v.truthy = true
        · simp [getErrorMessage, hv] at h
          exact ⟨_, rfl, by rw [h]⟩
        · simp [getErrorMessage, hv] at h
  refine ⟨?_, ?_, ?_, key, ?_⟩
  · intro h
    simp only at h
    subst h
    rfl
  · intro r h
    simp only [AxiosError.mk.injEq] at h
    subst h
    refine ⟨?_, ?_, ?_, ?_, ?_, ?_⟩
    · intro d v hd hv ht
      simp [getErrorMessage, hd, hv, ht]
    · intro hd
      simp [getErrorMessage, hd]
    · intro d hd hv
      simp [getErrorMessage, hd, hv]
    · intro d v hd hv ht
      simp [getErrorMessage, hd, hv, ht]
    · intro d hd hv
      simp [getErrorMessage, hd, hv, JSVal.truthy]
    · exact back r
  · constructor
    · intro h
      cases response with
      | none => exact Or.inl rfl
      | some r =>
        obtain ⟨d, h1, h2⟩ := back r h
        exact Or.inr ⟨r, d, rfl, h1, h2⟩
    · rintro (h | ⟨r, d, h1, h2, h3⟩)
      · simp only at h
        subst h
        rfl
      · simp only [AxiosError.mk.injEq] at h1
        subst h1
        simp [getErrorMessage, h2, h3, JSVal.truthy]
  · intro h
    rw [h] at key
    simp [JSVal.truthy] at key

/-- The network message with a response: on `echoedNetworkText` the error has
a response and `getErrorMessage` returns the network message, so that message
is not returned exactly when the response is missing. -/
theorem getErrorMessage_exactly_when_counterexample :
    echoedNetworkText.response ≠ none ∧
    getErrorMessage echoedNetworkText = .str "Errore di rete o server non raggiungibile" ∧
    ¬ (getErrorMessage echoedNetworkText = .str "Errore di rete o server non raggiungibile" ↔
        echoedNetworkText.response = none) := by
  refine ⟨by decide, by decide, ?_⟩
  intro h
  exact absurd (h.1 (by decide)) (by decide)

/-! ### App: the session -/

/-- A consistent state renders, and the render and the effect on `token` keep
it consistent. -/
theorem afterRender_consistent (apiUrl : String) (b : Builtins) (old new : AppState)
    (h : new.consistent b) :
    ∃ r, afterRender apiUrl b old new = some r ∧ r.state.consistent b := by
  obtain ⟨h1, u, h2, h3⟩ := h
  have hr : renders b new = true := by simp [renders, h3]
  simp only [afterRender, hr, if_true]
  by_cases ht : new.token ≠ old.token
  · simp only [ht, if_true, ne_eq, not_false_eq_true]
    refine ⟨_, rfl, ?_⟩
    simp only [tokenEffect]
    split
    · exact ⟨h1, u, h2, h3⟩
    · exact ⟨h1, u, h2, h3⟩
  · simp only [ht, if_false]
    exact ⟨_, rfl, h1, u, h2, h3⟩

/-- A value that `JSON.parse` reads back is the parsed user after it is
stored. -/
theorem parsedUser_stored (b : Builtins) (v : JSVal) (h : readsBack b v = true) :
    parsedUser b (some (storedText b (jsonStringify b (some v)))) = some v := by
  simp only [readsBack, Bool.and_eq_true, decide_eq_true_eq] at h
  obtain ⟨h1, h2⟩ := h
  simp [parsedUser, jsonStringify, storedText, itemValue, JSVal.truthy, h1, h2]

/-- One well-formed event of `App` renders and keeps the session consistent. -/
theorem appStep_consistent (apiUrl : String) (b : Builtins) (s : AppState) (e : AppEvent)
    (hnull : b.parse "null" = some .null) (hwf : e.wellFormed b = true)
    (h : s.consistent b) :
    ∃ r, appStep apiUrl b s e = some r ∧ r.state.consistent b := by
  have hout : (logout s).consistent b := by
    refine ⟨rfl, .null, rfl, ?_⟩
    simp [logout, parsedUser, itemValue, JSVal.truthy, hnull]
  cases e with
  | login t u =>
    cases t with
    | none => simp [AppEvent.wellFormed] at hwf
    | some tv =>
      cases u with
      | none => cases tv <;> simp [AppEvent.wellFormed] at hwf
      | some uv =>
        cases tv with
        | str ts =>
          simp only [AppEvent.wellFormed] at hwf
          apply afterRender_consistent
          exact ⟨rfl, uv, rfl, parsedUser_stored b uv hwf⟩
        | null => simp [AppEvent.wellFormed] at hwf
        | bool v => simp [AppEvent.wellFormed] at hwf
        | num n => simp [AppEvent.wellFormed] at hwf
        | object ref => simp [AppEvent.wellFormed] at hwf
  | logout => exact afterRender_consistent apiUrl b s _ hout
  | meLoaded d =>
    cases d with
    | none => simp [AppEvent.wellFormed] at hwf
    | some v =>
      simp only [AppEvent.wellFormed] at hwf
      apply afterRender_consistent
      exact ⟨h.1, v, rfl, parsedUser_stored b v hwf⟩
  | meFailed => exact afterRender_consistent apiUrl b s _ hout
  | setShowLogin v =>
    apply afterRender_consistent
    exact h

/-- A sequence of well-formed events of `App` renders throughout and keeps the
session consistent. -/
theorem appRun_consistent (apiUrl : String) (b : Builtins)
    (hnull : b.parse "null" = some .null) (events : List AppEvent) :
    ∀ s : AppState, s.consistent b → (∀ e ∈ events, e.wellFormed b = true) →
      ∃ s', appRun apiUrl b s events = some s' ∧ s'.consistent b := by
  induction events with
  | nil => intro s h _; exact ⟨s, rfl, h⟩
  | cons e es ih =>
    intro s h hwf
    obtain ⟨r, hr, hc⟩ := appStep_consistent apiUrl b s e hnull
      (hwf e (List.mem_cons_self e es)) h
    obtain ⟨s', hs', hc'⟩ := ih r.state hc (fun e' he' => hwf e' (List.mem_cons_of_mem e he'))
    exact ⟨s', by simp [appRun, hr, hs'], hc'⟩

/-- C13, as the code has it: take a mount of `App` whose first render
completes, and events in which every login carries a string as token and every
login and refresh a user that is not undefined and that `JSON.parse` reads back
from its `JSON.stringify` text. Then every render completes and at the end the
token in memory is the stored token (null when the key is absent) and the user
in memory is the parsed stored user (null when the key is absent). After
`login(t, u)`, whatever `t`, `u` and the state before, the token in memory and
the `Authorization` header are `t`, the stored token is the string made from
`t`, which is `t` itself when `t` is a string, the user in memory is `u` and
the stored user is the string made from `JSON.stringify(u)`. After `logout`,
whatever the state before, the token and the user are null, both keys are
removed and the header is absent. A dashboard is rendered exactly when the
render completes and the token and the user are both truthy. -/
theorem session_consistent (apiUrl : String) (b : Builtins) :
    (∀ storedToken storedUser events r0,
      App.mount apiUrl b storedToken storedUser = some r0 →
      b.parse "null" = some JSVal.null →
      (∀ e ∈ events, e.wellFormed b = true) →
      ∃ s, appRun apiUrl b r0.state events = some s ∧
        s.token = some (itemValue s.storedToken) ∧
        ∃ u, s.user = some u ∧ parsedUser b s.storedUser = some u) ∧
    (∀ s t u,
      (login b s t u).token = t ∧
      (login b s t u).authorization = some t ∧
      (login b s t u).storedToken = some (storedText b t) ∧
      (∀ ts, t = some (JSVal.str ts) → (login b s t u).storedToken = some ts) ∧
      (login b s t u).user = u ∧
      (login b s t u).storedUser = some (storedText b (jsonStringify b u)) ∧
      (∀ v, u = some v → (login b s t u).storedUser = some (b.stringify v)) ∧
      (∀ r, appStep apiUrl b s (.login t u) = some r →
        r.state.token = t ∧ r.state.authorization = some t ∧
        r.state.storedToken = some (storedText b t) ∧ r.state.user = u ∧
        r.state.storedUser = some (storedText b (jsonStringify b u)))) ∧
    (∀ s,
      (logout s).token = some JSVal.null ∧
      (logout s).user = some JSVal.null ∧
      (logout s).storedToken = none ∧
      (logout s).storedUser = none ∧
      (logout s).authorization = none ∧
      (∀ r, appStep apiUrl b s .logout = some r → r.state = logout s)) ∧
    (∀ roleOf s,
      (App.screen b roleOf s = some Screen.patientDashboard ∨
        App.screen b roleOf s = some Screen.doctorDashboard) ↔
      (renders b s = true ∧ s.hasToken = true ∧ s.hasUser = true)) := by
  refine ⟨?_, ?_, ?_, ?_⟩
  · intro storedToken storedUser events r0 hm hnull hwf
    have h0 : r0.state.consistent b := by
      simp only [App.mount, App.init] at hm
      cases hp : parsedUser b storedUser with
      | none => simp [hp] at hm
      | some u =>
        simp only [hp, Option.map_some', Option.some.injEq] at hm
        subst hm
        simp only [tokenEffect]
        split
        · exact ⟨rfl, u, rfl, hp⟩
        · exact ⟨rfl, u, rfl, hp⟩
    exact appRun_consistent apiUrl b hnull events r0.state h0 hwf
  · intro s t u
    refine ⟨rfl, rfl, rfl, ?_, rfl, rfl, ?_, ?_⟩
    · intro ts h
      subst h
      rfl
    · intro v h
      subst h
      rfl
    · intro r hr
      simp only [appStep, afterRender] at hr
      split at hr
      · split at hr
        · simp only [Option.some.injEq] at hr
          subst hr
          simp only [tokenEffect]
          split
          · exact ⟨rfl, rfl, rfl, rfl, rfl⟩
          · exact ⟨rfl, rfl, rfl, rfl, rfl⟩
        · simp only [Option.some.injEq] at hr
          subst hr
          exact ⟨rfl, rfl, rfl, rfl, rfl⟩
      · simp at hr
  · intro s
    refine ⟨rfl, rfl, rfl, rfl, rfl, ?_⟩
    intro r hr
    simp only [appStep, afterRender] at hr
    split at hr
    · split at hr
      · simp only [Option.some.injEq] at hr
        subst hr
        simp [tokenEffect, AppState.hasToken, logout, JSVal.truthy]
      · simp only [Option.some.injEq] at hr
        subst hr
        rfl
    · simp at hr
  · intro roleOf s
    simp only [App.screen]
    by_cases hr : renders b s = true
    · simp only [hr, if_true, true_and]
      cases hu : s.user with
      | none =>
        simp only [AppState.hasUser, hu]
        by_cases hl : s.showLogin = true <;> simp [hl]
      | some u =>
        simp only [AppState.hasUser, hu]
        by_cases hc : (s.hasToken && u.truthy) = true
        · have hc2 := hc
          simp only [Bool.and_eq_true] at hc2
          by_cases hp : roleOf u = .str "patient" <;> simp [hc, hp, hc2]
        · have hc2 : ¬ (s.hasToken = true ∧ u.truthy = true) := by
            simpa [Bool.and_eq_true] using hc
          by_cases hl : s.showLogin = true <;> simp [hc, hl, hc2]
    · simp [hr]

/-- The session invariant fails for a login response without a token: after
`login(null, u)` the token in memory is null while the stored token is the
string `null`, so the two differ, and a later mount on that storage starts with
the truthy token `"null"`. It fails for a login response without a user: after
`login(t, undefined)` the stored user is the string `undefined`, on which
`JSON.parse` throws, so the render that follows does not complete. -/
theorem session_consistent_counterexample :
    (login sampleBuiltins sampleApp (some .null) (some (.object 1))).token = some .null ∧
    (login sampleBuiltins sampleApp (some .null) (some (.object 1))).authorization
      = some (some .null) ∧
    (login sampleBuiltins sampleApp (some .null) (some (.object 1))).storedToken
      = some "null" ∧
    (login sampleBuiltins sampleApp (some .null) (some (.object 1))).token
      ≠ some (itemValue
          (login sampleBuiltins sampleApp (some .null) (some (.object 1))).storedToken) ∧
    (appStep "" sampleBuiltins sampleApp (.login (some .null) (some (.object 1)))).map
        (fun r => (r.state.token, r.state.storedToken))
      = some (some .null, some "null") ∧
    (App.init sampleBuiltins (some "null") (some "\x7b\x7d")).map
        (fun s => (s.token, s.hasToken))
      = some (some (.str "null"), true) ∧
    (login sampleBuiltins sampleApp (some (.str "tok")) none).user = none ∧
    (login sampleBuiltins sampleApp (some (.str "tok")) none).storedUser
      = some "undefined" ∧
    sampleBuiltins.parse "undefined" = none ∧
    (appStep "" sampleBuiltins sampleApp (.login (some (.str "tok")) none)).isNone = true := by
  refine ⟨by decide, by decide, by decide, by decide, by decide, by decide, by decide,
    by decide, by decide, by decide⟩

/-- The sample session on an empty `localStorage`: the mount completes, the
events are well-formed, every render completes and the session is consistent
at the end. -/
theorem session_consistent_witness :
    (App.mount "" sampleBuiltins none none).map (fun r => (r.requests, r.state))
      = some ([], sampleApp) ∧
    sampleBuiltins.parse "null" = some JSVal.null ∧
    (∀ e ∈ sampleSession, e.wellFormed sampleBuiltins = true) ∧
    ∃ s, appRun "" sampleBuiltins sampleApp sampleSession = some s ∧
      s.token = some (itemValue s.storedToken) ∧
      ∃ u, s.user = some u ∧ parsedUser sampleBuiltins s.storedUser = some u :=
  ⟨by decide, by decide, by decide,
   (session_consistent "" sampleBuiltins).1 none none sampleSession
     { requests := [], toasts := [], calls := [], state := sampleApp }
     rfl (by decide) (by decide)⟩


/-! ### The filter and the statistics of the dashboard -/

/-- The filter effect keeps the appointments that pass `keptByFilters`. -/
theorem applyFilters_eq_filter (lower : String → String) (searchTerm statusFilter : String)
    (appointments : List Appointment) :
    applyFilters lower searchTerm statusFilter appointments
      = appointments.filter (keptByFilters lower searchTerm statusFilter) := by
  have hm : (fun a : Appointment =>
      match a.patient_name with
      | some n => jsIncludes (lower n) (lower searchTerm)
      | none => false) = matchesSearch lower searchTerm := by
    funext a
    rfl
  by_cases h1 : searchTerm = "" <;> by_cases h2 : statusFilter = "all"
  · have h0 : applyFilters lower searchTerm statusFilter appointments = appointments := by
      simp [applyFilters, h1, h2]
    rw [h0]
    symm
    rw [List.filter_eq_self]
    intro a _
    simp [keptByFilters, h1, h2]
  · have h0 : applyFilters lower searchTerm statusFilter appointments
        = appointments.filter (fun a => decide (a.status = statusFilter)) := by
      simp [applyFilters, h1, h2]
    rw [h0]
    apply List.filter_congr
    intro a _
    simp [keptByFilters, h1, h2]
  · simp only [applyFilters, h1, h2, ne_eq, not_false_eq_true, not_true_eq_false, if_true,
      if_false, hm]
    apply List.filter_congr
    intro a _
    simp [keptByFilters, h1, h2]
  · simp only [applyFilters, h1, h2, ne_eq, not_false_eq_true, if_true, hm, List.filter_filter]
    apply List.filter_congr
    intro a _
    simp [keptByFilters, h1, h2, Bool.and_comm]

/-- C14: the filtered list of the doctor dashboard is the list of the
appointments with those removed that fail the search term (when it is not
empty: the lower-cased patient name must contain the lower-cased term, and an
appointment without a patient name fails) or the status filter (when it is not
`all`); it is a sublist, in the same order. With an empty term and the filter
`all` it is the whole list, and filtering by term and by status one after the
other gives the same list in either order. -/
theorem filtered_list_characterised (lower : String → String) (searchTerm statusFilter : String)
    (appointments : List Appointment) :
    applyFilters lower searchTerm statusFilter appointments
      = appointments.filter (keptByFilters lower searchTerm statusFilter) ∧
    (applyFilters lower searchTerm statusFilter appointments).Sublist appointments ∧
    (∀ a, a ∈ applyFilters lower searchTerm statusFilter appointments ↔
      a ∈ appointments ∧
      (searchTerm ≠ "" →
        ∃ n, a.patient_name = some n ∧ jsIncludes (lower n) (lower searchTerm) = true) ∧
      (statusFilter ≠ "all" → a.status = statusFilter)) ∧
    applyFilters lower "" "all" appointments = appointments ∧
    applyFilters lower searchTerm "all" (applyFilters lower "" statusFilter appointments)
      = applyFilters lower searchTerm statusFilter appointments ∧
    applyFilters lower "" statusFilter (applyFilters lower searchTerm "all" appointments)
      = applyFilters lower searchTerm statusFilter appointments ∧
    (∀ s : DoctorState, (filterEffect lower s).filteredAppts
      = applyFilters lower s.searchTerm s.statusFilter s.appointments) := by
  refine ⟨applyFilters_eq_filter lower searchTerm statusFilter appointments, ?_, ?_, ?_, ?_, ?_,
    fun s => rfl⟩
  · rw [applyFilters_eq_filter]
    exact List.filter_sublist appointments
  · intro a
    rw [applyFilters_eq_filter, List.mem_filter]
    apply and_congr_right
    intro _
    simp only [keptByFilters, matchesSearch, Bool.and_eq_true, Bool.or_eq_true,
      decide_eq_true_eq]
    apply and_congr
    · constructor
      · intro h hne
        rcases h with h | h
        · exact absurd h hne
        · cases hp : a.patient_name with
          | none => simp [hp] at h
          | some n =>
            simp only [hp] at h
            exact ⟨n, rfl, h⟩
      · intro h
        by_cases hs : searchTerm = ""
        · exact Or.inl hs
        · obtain ⟨n, hn, hi⟩ := h hs
          right
          simp [hn, hi]
    · constructor
      · intro h hne
        rcases h with h | h
        · exact absurd h hne
        · exact h
      · intro h
        by_cases hs : statusFilter = "all"
        · exact Or.inl hs
        · exact Or.inr (h hs)
  · simp [applyFilters]
  · simp only [applyFilters_eq_filter, List.filter_filter]
    apply List.filter_congr
    intro a _
    simp [keptByFilters]
  · simp only [applyFilters_eq_filter, List.filter_filter]
    apply List.filter_congr
    intro a _
    simp [keptByFilters, Bool.and_comm]

/-- C15: the statistics of the doctor dashboard: `total` is the length of the
list, `pending` the number of appointments with status `pending`, `today` the
number of appointments whose date is the current date; so `pending` and
`today` are at most `total`, and all three are 0 for the empty list. The cards
show them under `Totale`, `Da Accettare` and `Oggi`. -/
theorem stats_counts (today : String) (appointments : List Appointment) :
    (stats today appointments).total = appointments.length ∧
    (stats today appointments).pending
      = appointments.countP (fun a => decide (a.status = "pending")) ∧
    (stats today appointments).today
      = appointments.countP (fun a => decide (a.date = today)) ∧
    (stats today appointments).pending ≤ (stats today appointments).total ∧
    (stats today appointments).today ≤ (stats today appointments).total ∧
    stats today [] = { total := 0, pending := 0, today := 0 } ∧
    statCards today appointments
      = [("Totale", appointments.length),
         ("Da Accettare", appointments.countP (fun a => decide (a.status = "pending"))),
         ("Oggi", appointments.countP (fun a => decide (a.date = today)))] := by
  have hp : (stats today appointments).pending
      = appointments.countP (fun a => decide (a.status = "pending")) := by
    simp [stats, List.countP_eq_length_filter]
  have ht : (stats today appointments).today
      = appointments.countP (fun a => decide (a.date = today)) := by
    simp [stats, List.countP_eq_length_filter]
  refine ⟨rfl, hp, ht, ?_, ?_, rfl, ?_⟩
  · rw [hp]; exact List.countP_le_length _
  · rw [ht]; exact List.countP_le_length _
  · simp only [statCards, hp, ht]
    rfl

end Clinic
